import Mathlib

/-!
# Package `tokennotify` (refresh.go)

A shallow embedding of `refresh.go`: the struct `notifyRefreshTokenSource`, its
constructor `NotifyRefreshTokenSource`, and its two methods `Token` and
`WithNotifyFunc`.

Go values are represented as follows.

* `*oauth2.Token` is `Option Tok` (`none` is the nil pointer), for an arbitrary
  type `Tok` of token objects.
* `error` is `Option Err` (`none` is the nil error).
* an `oauth2.TokenSource` interface value is a `TokenSource Tok`: the nil
  interface, a supplier of some other dynamic type, a
  `*notifyRefreshTokenSource`, or a `notifyRefreshTokenSource` held by value
  (both method receivers are value receivers, so the struct type itself is in
  the interface's method set).
* a `TokenNotifyFunc` value is `Option TokenNotifyFunc` (`none` is the nil func).
* the heap of allocated `notifyRefreshTokenSource` structs is a list; an address
  is an index into it and `&notifyRefreshTokenSource{...}` appends a cell.
* collaborators outside the package (terminal suppliers, caller-supplied
  callbacks, the token's validity test) act on an external state `σ` and are
  given by an `Env`.
* runs that do not return a value (nil dereference, blocking on a locked mutex,
  a collaborator that does not return, recursion deeper than the fuel) are
  `Except.error`.
-/

namespace tokennotify

/-- Ways in which a call fails to return. -/
inductive Fault where
  | nilDeref
  | deadlock
  | outOfFuel
  | collaborator
  deriving DecidableEq, Repr

/-- Function values of type `TokenNotifyFunc` (refresh.go:11): the package-level
function `notifyFunc`, or a function supplied by a caller, identified by a number. -/
inductive TokenNotifyFunc where
  | notifyFunc
  | closure (id : Nat)
  deriving DecidableEq, Repr

/-- The struct of refresh.go:36-41. `Src` is the type of the interface field `new`;
`mu` is the state of the mutex (`true` when locked). -/
structure notifyRefreshTokenSource (Src Tok : Type) where
  new : Src
  mu : Bool
  t : Option Tok
  notifyFunc : Option TokenNotifyFunc

/-- Values of the interface `oauth2.TokenSource`, by dynamic type. -/
inductive TokenSource (Tok : Type) where
  | nil
  | terminal (k : Nat)
  | ptr (p : Option Nat)
  | val (s : notifyRefreshTokenSource (TokenSource Tok) Tok)

/-- A `notifyRefreshTokenSource` whose field `new` is an interface value. -/
abbrev Cache (Tok : Type) := notifyRefreshTokenSource (TokenSource Tok) Tok

/-- What a run can be observed to do: a terminal supplier produced a result, or a
callback was invoked on an argument. -/
inductive Event (Tok : Type) where
  | fetch (k : Nat)
  | notify (f : TokenNotifyFunc) (t : Option Tok)

/-- Program state: the heap of caches, the state of the outside world, and the log
of collaborator invocations so far. -/
structure World (Tok σ : Type) where
  heap : List (Cache Tok)
  outside : σ
  trace : List (Event Tok)

/-- Collaborators that are not part of the package. `valid` is the validity test of
a non-nil token, `fetch k` is the method `Token` of terminal supplier `k`, and
`notify id` is the caller-supplied callback `id`. -/
structure Env (Tok Err σ : Type) where
  valid : Tok → σ → Bool
  fetch : Nat → σ → Except Fault ((Option Tok × Option Err) × σ)
  notify : Nat → Option Tok → σ → Except Fault (Option Err × σ)

/-- Go's `(*oauth2.Token, error)` together with the state after the call. -/
abbrev Outcome (Tok Err σ : Type) := Except Fault ((Option Tok × Option Err) × World Tok σ)

section Definitions

variable {Tok Err σ : Type}

/-- Modelled from the spec: the method `Valid` of `*oauth2.Token`, which belongs to
the library `golang.org/x/oauth2` and is not part of this repository. The spec
describes it as the credential's self-reported validity, "considering presence,
expiry, and any required fields": an absent (nil) credential is not valid, and a
present one is judged by the collaborator-defined test. -/
def Valid (env : Env Tok Err σ) (x : σ) : Option Tok → Bool
  | none => false
  | some tok => env.valid tok x

/-- The function `notifyFunc` of refresh.go:13-15. -/
def notifyFunc (_t : Option Tok) : Option Err := none

/-- Calling a non-nil function value `f(t)`. -/
def callNotify (env : Env Tok Err σ) (f : TokenNotifyFunc) (t : Option Tok)
    (w : World Tok σ) : Except Fault (Option Err × World Tok σ) :=
  match f with
  | .notifyFunc =>
    .ok (notifyFunc t, { w with trace := w.trace ++ [Event.notify f t] })
  | .closure id =>
    match env.notify id t w.outside with
    | .error x => .error x
    | .ok (e, x) => .ok (e, { w with outside := x, trace := w.trace ++ [Event.notify f t] })

/-- The method `Token` of refresh.go:46-69, run on its receiver `s`. The receiver is
declared by value, so `s` is the callee's own copy of the struct: the lock taken and
the assignment `s.t = t` act on that copy. `callNew` is the meaning of a `Token()`
call on an interface value, used for `s.new.Token()`. -/
def notifyRefreshTokenSource.Token (env : Env Tok Err σ)
    (callNew : TokenSource Tok → World Tok σ → Outcome Tok Err σ)
    (s : Cache Tok) (w : World Tok σ) : Outcome Tok Err σ :=
  -- s.mu.Lock(); defer s.mu.Unlock()
  if s.mu then .error .deadlock else
  let s := { s with mu := true }
  if Valid env w.outside s.t then
    -- token is still valid, just return it
    .ok ((s.t, none), w)
  else
    -- request new token
    match callNew s.new w with
    | .error x => .error x
    | .ok ((_, some err), w1) => .ok ((none, some err), w1)
    | .ok ((t, none), w1) =>
      -- assign new token
      let s := { s with t := t }
      match s.notifyFunc with
      | some f =>
        -- return new token and execute notify func
        match callNotify env f t w1 with
        | .error x => .error x
        | .ok (e, w2) => .ok ((t, e), w2)
      | none => .ok ((t, none), w1)

/-- A call `src.Token()` on an interface value, by dynamic type. A call through a
`*notifyRefreshTokenSource` copies the struct it points to into the value receiver;
nothing is written back to the heap cell. -/
def TokenSource.Token (env : Env Tok Err σ) :
    Nat → TokenSource Tok → World Tok σ → Outcome Tok Err σ
  | 0, _, _ => .error .outOfFuel
  | fuel + 1, src, w =>
    match src with
    | .nil => .error .nilDeref
    | .terminal k =>
      match env.fetch k w.outside with
      | .error x => .error x
      | .ok (r, x) => .ok (r, { w with outside := x, trace := w.trace ++ [Event.fetch k] })
    | .ptr none => .error .nilDeref
    | .ptr (some a) =>
      match w.heap[a]? with
      | none => .error .nilDeref
      | some s => notifyRefreshTokenSource.Token env (TokenSource.Token env fuel) s w
    | .val s => notifyRefreshTokenSource.Token env (TokenSource.Token env fuel) s w

/-- The method `WithNotifyFunc` of refresh.go:72-75: the receiver copy with its
callback replaced. -/
def notifyRefreshTokenSource.WithNotifyFunc (s : Cache Tok) (f : Option TokenNotifyFunc) :
    Cache Tok :=
  let s := { s with notifyFunc := f }
  s

/-- The allocation `&notifyRefreshTokenSource{...}`: a new heap cell and its address. -/
def alloc (s : Cache Tok) (w : World Tok σ) : Option Nat × World Tok σ :=
  (some w.heap.length, { w with heap := w.heap ++ [s] })

/-- The constructor `NotifyRefreshTokenSource` of refresh.go:17-33. The type
assertion `src.(*notifyRefreshTokenSource)` succeeds exactly on `TokenSource.ptr`. -/
def NotifyRefreshTokenSource (t : Option Tok) (src : TokenSource Tok) (w : World Tok σ) :
    Except Fault (Option Nat × World Tok σ) :=
  match src with
  | .ptr rt =>
    match t with
    | none =>
      -- Just use it directly.
      .ok (rt, w)
    | some _ =>
      -- src = rt.new
      match rt with
      | none => .error .nilDeref
      | some a =>
        match w.heap[a]? with
        | none => .error .nilDeref
        | some r =>
          .ok (alloc { new := r.new, mu := false, t := t, notifyFunc := some .notifyFunc } w)
  | _ =>
    .ok (alloc { new := src, mu := false, t := t, notifyFunc := some .notifyFunc } w)

/-- Whether an interface value is one of this package's caches, held by pointer or by
value. -/
def TokenSource.isCache : TokenSource Tok → Bool
  | .ptr _ => true
  | .val _ => true
  | _ => false

/-- Number of terminal-supplier calls in a log. -/
def fetchCount (tr : List (Event Tok)) : Nat :=
  (tr.filter fun e => match e with | .fetch _ => true | _ => false).length

/-- Number of callback invocations in a log. -/
def notifyCount (tr : List (Event Tok)) : Nat :=
  (tr.filter fun e => match e with | .notify _ _ => true | _ => false).length

/-- A concrete outside world on which the theorems are exercised. The state is a
clock and a token is the time at which it expires. Supplier 0 issues a token good
for ten ticks, supplier 1 fails with error 401, supplier 2 fails with error 503 at
even times and issues a token at odd times, and every supplier call advances the
clock by one. Callback 0 accepts the token, callback 1 rejects it with error 500. -/
def demoEnv : Env Nat Nat Nat where
  valid tok now := decide (now < tok)
  fetch k now :=
    match k with
    | 0 => .ok ((some (now + 10), none), now + 1)
    | 1 => .ok ((none, some 401), now + 1)
    | 2 => if now % 2 = 0 then .ok ((none, some 503), now + 1)
           else .ok ((some (now + 10), none), now + 1)
    | _ => .error .collaborator
  notify id _ now :=
    match id with
    | 0 => .ok (none, now)
    | 1 => .ok (some 500, now)
    | _ => .error .collaborator

/-- The world at time `now` with the given heap and an empty log. -/
def demoWorld (heap : List (Cache Nat)) (now : Nat) : World Nat Nat :=
  { heap := heap, outside := now, trace := [] }

/-- A cache struct over supplier `k` holding `t`, with callback `f` and a free mutex. -/
def demoCache (k : Nat) (t : Option Nat) (f : Option TokenNotifyFunc) : Cache Nat :=
  { new := .terminal k, mu := false, t := t, notifyFunc := f }

/-- A call `p.WithNotifyFunc(f)` through a `*notifyRefreshTokenSource`: the struct
pointed to is copied into the value receiver, the method changes the copy and
returns it, and the heap cell is not written. -/
def callWithNotifyFunc (p : Option Nat) (f : Option TokenNotifyFunc) (w : World Tok σ) :
    Except Fault (Cache Tok × World Tok σ) :=
  match p with
  | none => .error .nilDeref
  | some a =>
    match w.heap[a]? with
    | none => .error .nilDeref
    | some s => .ok (s.WithNotifyFunc f, w)

/-- Number of invocations of the callback `f` in a log. -/
def notifyCountOf (f : TokenNotifyFunc) (tr : List (Event Tok)) : Nat :=
  (tr.filter fun e => match e with | .notify g _ => decide (g = f) | _ => false).length

/-- The wrapper that lines 28-32 of refresh.go would build around the pointer `rt`
if the constructor did not unwrap it: it holds `t`, has `rt` itself for inner
supplier, and the package-level `notifyFunc` for callback. -/
def nestedWrapper (t : Option Tok) (rt : Option Nat) : Cache Tok :=
  { new := .ptr rt, mu := false, t := t, notifyFunc := some .notifyFunc }

/-- One `src.Token()` call after another, `n` times, each starting in the state the
previous one left; the results are listed in call order. -/
def repeatToken (env : Env Tok Err σ) (fuel : Nat) (src : TokenSource Tok) :
    Nat → World Tok σ → Except Fault (List (Option Tok × Option Err) × World Tok σ)
  | 0, w => .ok ([], w)
  | n + 1, w =>
    match TokenSource.Token env fuel src w with
    | .error x => .error x
    | .ok (r, w1) =>
      match repeatToken env fuel src n w1 with
      | .error x => .error x
      | .ok (rs, w2) => .ok (r :: rs, w2)

/-- An outside world in which every supplier issues the same credential 7, which
never stops being valid, and every callback accepts it. The state counts the
supplier calls made. -/
def steadyEnv : Env Nat Nat Nat where
  valid _ _ := true
  fetch _ n := .ok ((some 7, none), n + 1)
  notify _ _ n := .ok (none, n)

/-- An outside world in which every supplier returns a nil credential together with
a nil error, and every callback rejects its argument with error 500. -/
def looseEnv : Env Nat Nat Nat where
  valid _ _ := true
  fetch _ n := .ok ((none, none), n + 1)
  notify _ _ n := .ok (some 500, n)

/-- An outside world with a clock, in which a token is the time at which it expires,
every supplier issues a token good for ten ticks and takes one tick to do so, and
every callback accepts the token but takes a hundred ticks to return. -/
def slowEnv : Env Nat Nat Nat where
  valid tok now := decide (now < tok)
  fetch _ now := .ok ((some (now + 10), none), now + 1)
  notify _ _ now := .ok (none, now + 100)

end Definitions

section Theorems

variable {Tok Err σ : Type}

/-- C1: a cache whose mutex is free and whose current credential is non-nil and
valid returns exactly that credential with a nil error, whatever the meaning of
calls on its inner supplier; the state after the call is the state before it, so
no supplier was called and no callback was invoked. The same holds for the call
through a pointer to the cache. -/
theorem Token_returns_valid_cached (env : Env Tok Err σ)
    (call : TokenSource Tok → World Tok σ → Outcome Tok Err σ)
    (s : Cache Tok) (w : World Tok σ) (tok : Tok) (a fuel : Nat)
    (hmu : s.mu = false) (ht : s.t = some tok) (hv : env.valid tok w.outside = true) :
    s.Token env call w = .ok ((some tok, none), w) ∧
    (w.heap[a]? = some s →
      TokenSource.Token env (fuel + 1) (.ptr (some a)) w = .ok ((some tok, none), w)) := by
  have hbody : ∀ c : TokenSource Tok → World Tok σ → Outcome Tok Err σ,
      s.Token env c w = .ok ((some tok, none), w) := by
    intro c
    simp [notifyRefreshTokenSource.Token, hmu, ht, Valid, hv]
  refine ⟨hbody call, fun ha => ?_⟩
  simp only [TokenSource.Token, ha]
  exact hbody _

/-- Witness for C1: a cache holding token 5 at time 0 over a supplier that would fail. -/
theorem Token_returns_valid_cached_witness :
    (demoCache 1 (some 5) (some (.closure 1))).Token demoEnv (TokenSource.Token demoEnv 1)
        (demoWorld [demoCache 1 (some 5) (some (.closure 1))] 0)
      = .ok ((some 5, none), demoWorld [demoCache 1 (some 5) (some (.closure 1))] 0) ∧
    TokenSource.Token demoEnv 1 (.ptr (some 0))
        (demoWorld [demoCache 1 (some 5) (some (.closure 1))] 0)
      = .ok ((some 5, none), demoWorld [demoCache 1 (some 5) (some (.closure 1))] 0) :=
  let h := Token_returns_valid_cached demoEnv (TokenSource.Token demoEnv 1)
    (demoCache 1 (some 5) (some (.closure 1)))
    (demoWorld [demoCache 1 (some 5) (some (.closure 1))] 0) 5 0 0 rfl rfl rfl
  ⟨h.1, h.2 rfl⟩

/-- A callback call leaves the heap as it is. -/
theorem callNotify_heap (env : Env Tok Err σ) (f : TokenNotifyFunc) (t : Option Tok)
    (w w2 : World Tok σ) (e : Option Err) (h : callNotify env f t w = .ok (e, w2)) :
    w2.heap = w.heap := by
  cases f with
  | notifyFunc =>
    simp only [callNotify, Except.ok.injEq, Prod.mk.injEq] at h
    rw [← h.2]
  | closure id =>
    simp only [callNotify] at h
    split at h
    · exact absurd h (by simp)
    · simp only [Except.ok.injEq, Prod.mk.injEq] at h
      rw [← h.2]

/-- A callback call appends exactly one event, naming the callback and its argument. -/
theorem callNotify_trace (env : Env Tok Err σ) (f : TokenNotifyFunc) (t : Option Tok)
    (w w2 : World Tok σ) (e : Option Err) (h : callNotify env f t w = .ok (e, w2)) :
    w2.trace = w.trace ++ [Event.notify f t] := by
  cases f with
  | notifyFunc =>
    simp only [callNotify, Except.ok.injEq, Prod.mk.injEq] at h
    rw [← h.2]
  | closure id =>
    simp only [callNotify] at h
    split at h
    · exact absurd h (by simp)
    · simp only [Except.ok.injEq, Prod.mk.injEq] at h
      rw [← h.2]

/-- The body of `Token` leaves the heap as it is whenever calls on the inner
supplier do. -/
theorem Token_body_heap (env : Env Tok Err σ)
    (call : TokenSource Tok → World Tok σ → Outcome Tok Err σ)
    (hcall : ∀ src w w1 r, call src w = .ok (r, w1) → w1.heap = w.heap)
    (s : Cache Tok) (w w2 : World Tok σ) (r : Option Tok × Option Err)
    (h : s.Token env call w = .ok (r, w2)) : w2.heap = w.heap := by
  unfold notifyRefreshTokenSource.Token at h
  split at h
  · exact absurd h (by simp)
  · simp only at h
    split at h
    · simp only [Except.ok.injEq, Prod.mk.injEq] at h
      rw [← h.2]
    · split at h
      · exact absurd h (by simp)
      · rename_i w1 hc
        simp only [Except.ok.injEq, Prod.mk.injEq] at h
        rw [← h.2]
        exact hcall _ _ _ _ hc
      · rename_i t w1 hc
        have h1 := hcall _ _ _ _ hc
        split at h
        · split at h
          · exact absurd h (by simp)
          · rename_i e w3 hn
            simp only [Except.ok.injEq, Prod.mk.injEq] at h
            rw [← h.2, callNotify_heap env _ _ _ _ _ hn, h1]
        · simp only [Except.ok.injEq, Prod.mk.injEq] at h
          rw [← h.2, h1]

/-- No `Token()` call on any interface value writes to the heap of caches: the cell a
`*notifyRefreshTokenSource` points to is the same after the call as before it. -/
theorem TokenSource_Token_heap (env : Env Tok Err σ) :
    ∀ (fuel : Nat) (src : TokenSource Tok) (w w1 : World Tok σ) (r : Option Tok × Option Err),
      TokenSource.Token env fuel src w = .ok (r, w1) → w1.heap = w.heap := by
  intro fuel
  induction fuel with
  | zero =>
    intro src w w1 r h
    simp [TokenSource.Token] at h
  | succ n ih =>
    intro src w w1 r h
    cases src with
    | nil => simp [TokenSource.Token] at h
    | terminal k =>
      simp only [TokenSource.Token] at h
      split at h
      · exact absurd h (by simp)
      · simp only [Except.ok.injEq, Prod.mk.injEq] at h
        rw [← h.2]
    | ptr p =>
      cases p with
      | none => simp [TokenSource.Token] at h
      | some a =>
        simp only [TokenSource.Token] at h
        split at h
        · exact absurd h (by simp)
        · exact Token_body_heap env _ ih _ _ _ _ h
    | val s =>
      simp only [TokenSource.Token] at h
      exact Token_body_heap env _ ih _ _ _ _ h

/-- Appending a callback event does not change the number of supplier calls. -/
theorem fetchCount_append_notify (tr : List (Event Tok)) (f : TokenNotifyFunc)
    (t : Option Tok) : fetchCount (tr ++ [Event.notify f t]) = fetchCount tr := by
  simp [fetchCount, List.filter_append]

/-- Appending a supplier event adds one to the number of supplier calls. -/
theorem fetchCount_append_fetch (tr : List (Event Tok)) (k : Nat) :
    fetchCount (tr ++ [Event.fetch k]) = fetchCount tr + 1 := by
  simp [fetchCount, List.filter_append]

/-- Appending a callback event adds one to the number of callback invocations. -/
theorem notifyCount_append_notify (tr : List (Event Tok)) (f : TokenNotifyFunc)
    (t : Option Tok) : notifyCount (tr ++ [Event.notify f t]) = notifyCount tr + 1 := by
  simp [notifyCount, List.filter_append]

/-- The two ways for the current credential to need a refresh. -/
theorem Valid_eq_false (env : Env Tok Err σ) (x : σ) (t : Option Tok)
    (h : t = none ∨ ∃ tok, t = some tok ∧ env.valid tok x = false) :
    Valid env x t = false := by
  rcases h with h | ⟨tok, h, hv⟩
  · rw [h]; rfl
  · rw [h]; exact hv

/-- The body of `Token` when the credential needs a refresh and the inner supplier
fails. -/
theorem Token_body_fail (env : Env Tok Err σ)
    (call : TokenSource Tok → World Tok σ → Outcome Tok Err σ)
    (s : Cache Tok) (w w1 : World Tok σ) (t0 : Option Tok) (e : Err)
    (hmu : s.mu = false) (hinv : Valid env w.outside s.t = false)
    (hnew : call s.new w = .ok ((t0, some e), w1)) :
    s.Token env call w = .ok ((none, some e), w1) := by
  simp [notifyRefreshTokenSource.Token, hmu, hinv, hnew]

/-- The body of `Token` when the credential needs a refresh, the inner supplier
succeeds and the attached callback returns. -/
theorem Token_body_notify (env : Env Tok Err σ)
    (call : TokenSource Tok → World Tok σ → Outcome Tok Err σ)
    (s : Cache Tok) (w w1 w2 : World Tok σ) (c : Option Tok) (f : TokenNotifyFunc)
    (e : Option Err)
    (hmu : s.mu = false) (hinv : Valid env w.outside s.t = false)
    (hnew : call s.new w = .ok ((c, none), w1))
    (hf : s.notifyFunc = some f) (hcb : callNotify env f c w1 = .ok (e, w2)) :
    s.Token env call w = .ok ((c, e), w2) := by
  simp [notifyRefreshTokenSource.Token, hmu, hinv, hnew, hf, hcb]

/-- The body of `Token` when the credential needs a refresh, the inner supplier
succeeds and the callback field is nil. -/
theorem Token_body_no_notify (env : Env Tok Err σ)
    (call : TokenSource Tok → World Tok σ → Outcome Tok Err σ)
    (s : Cache Tok) (w w1 : World Tok σ) (c : Option Tok)
    (hmu : s.mu = false) (hinv : Valid env w.outside s.t = false)
    (hnew : call s.new w = .ok ((c, none), w1))
    (hf : s.notifyFunc = none) :
    s.Token env call w = .ok ((c, none), w1) := by
  simp [notifyRefreshTokenSource.Token, hmu, hinv, hnew, hf]

/-- A successful refresh returns the supplier's credential and makes no supplier
call after the one that produced it, provided the attached callback returns. -/
theorem Token_body_success (env : Env Tok Err σ)
    (call : TokenSource Tok → World Tok σ → Outcome Tok Err σ)
    (s : Cache Tok) (w w1 : World Tok σ) (c : Option Tok)
    (hmu : s.mu = false) (hinv : Valid env w.outside s.t = false)
    (hnew : call s.new w = .ok ((c, none), w1))
    (hcb : ∀ f, s.notifyFunc = some f → ∃ e w2, callNotify env f c w1 = .ok (e, w2)) :
    ∃ e w2, s.Token env call w = .ok ((c, e), w2) ∧
      fetchCount w2.trace = fetchCount w1.trace := by
  cases hf : s.notifyFunc with
  | none =>
    exact ⟨none, w1, Token_body_no_notify env call s w w1 c hmu hinv hnew hf, rfl⟩
  | some f =>
    obtain ⟨e, w2, h2⟩ := hcb f hf
    refine ⟨e, w2, Token_body_notify env call s w w1 w2 c f e hmu hinv hnew hf h2, ?_⟩
    rw [callNotify_trace env f c w1 w2 e h2, fetchCount_append_notify]

/-- A call through a pointer runs the body on the struct the pointer refers to. -/
theorem Token_ptr (env : Env Tok Err σ) (fuel a : Nat) (s : Cache Tok) (w : World Tok σ)
    (ha : w.heap[a]? = some s) :
    TokenSource.Token env (fuel + 1) (.ptr (some a)) w
      = s.Token env (TokenSource.Token env fuel) w := by
  simp only [TokenSource.Token, ha]

/-- A terminal supplier that returns has logged exactly one call. -/
theorem Token_terminal_trace (env : Env Tok Err σ) (fuel k : Nat) (w w1 : World Tok σ)
    (r : Option Tok × Option Err)
    (h : TokenSource.Token env (fuel + 1) (.terminal k) w = .ok (r, w1)) :
    w1.trace = w.trace ++ [Event.fetch k] := by
  simp only [TokenSource.Token] at h
  split at h
  · exact absurd h (by simp)
  · simp only [Except.ok.injEq, Prod.mk.injEq] at h
    rw [← h.2]

/-- C2 (the code at a failing input): a cache is built over supplier 0 with no
initial credential, and `Token` is called twice through the returned pointer. The
first call returns token 10 and leaves the heap cell with its credential still nil.
Token 10 is valid at the time of the second call, yet the second call does not
return it: it calls the supplier and the callback again and returns token 11. -/
theorem Token_refresh_is_not_stored :
    NotifyRefreshTokenSource (none : Option Nat) (.terminal 0) (demoWorld [] 0)
      = .ok (some 0, demoWorld [demoCache 0 none (some .notifyFunc)] 0) ∧
    TokenSource.Token demoEnv 2 (.ptr (some 0))
        (demoWorld [demoCache 0 none (some .notifyFunc)] 0)
      = .ok ((some 10, none),
          ⟨[demoCache 0 none (some .notifyFunc)], 1,
            [.fetch 0, .notify .notifyFunc (some 10)]⟩) ∧
    Valid demoEnv 1 (some 10) = true ∧
    TokenSource.Token demoEnv 2 (.ptr (some 0))
        ⟨[demoCache 0 none (some .notifyFunc)], 1, [.fetch 0, .notify .notifyFunc (some 10)]⟩
      = .ok ((some 11, none),
          ⟨[demoCache 0 none (some .notifyFunc)], 2,
            [.fetch 0, .notify .notifyFunc (some 10),
             .fetch 0, .notify .notifyFunc (some 11)]⟩) :=
  ⟨rfl, rfl, rfl, rfl⟩

/-- C3: a cache whose mutex is free and whose current credential is nil or not valid
returns from `Token` (a nil credential is not a failure), having made the one call
on its inner supplier and no supplier call after it; when that call succeeded with
`c`, the credential returned is `c`. Over a terminal supplier the number of supplier
calls in the log grows by exactly one. -/
theorem Token_refreshes_when_invalid (env : Env Tok Err σ)
    (call : TokenSource Tok → World Tok σ → Outcome Tok Err σ)
    (s : Cache Tok) (w w1 : World Tok σ) (c : Option Tok) (err : Option Err)
    (hmu : s.mu = false)
    (hinv : s.t = none ∨ ∃ tok, s.t = some tok ∧ env.valid tok w.outside = false)
    (hnew : call s.new w = .ok ((c, err), w1))
    (hcb : err = none → ∀ f, s.notifyFunc = some f →
      ∃ e w2, callNotify env f c w1 = .ok (e, w2)) :
    ∃ r w2, s.Token env call w = .ok (r, w2) ∧
      fetchCount w2.trace = fetchCount w1.trace ∧
      (err = none → r.1 = c) ∧
      (∀ k fuel, s.new = .terminal k → call = TokenSource.Token env (fuel + 1) →
        fetchCount w2.trace = fetchCount w.trace + 1) := by
  have hv := Valid_eq_false env w.outside s.t hinv
  have key : ∃ r w2, s.Token env call w = .ok (r, w2) ∧
      fetchCount w2.trace = fetchCount w1.trace ∧ (err = none → r.1 = c) := by
    cases err with
    | some e0 =>
      exact ⟨(none, some e0), w1, Token_body_fail env call s w w1 c e0 hmu hv hnew, rfl,
        fun h => absurd h (by simp)⟩
    | none =>
      obtain ⟨e, w2, h2, h3⟩ := Token_body_success env call s w w1 c hmu hv hnew (hcb rfl)
      exact ⟨(c, e), w2, h2, h3, fun _ => rfl⟩
  obtain ⟨r, w2, h1, h2, h3⟩ := key
  refine ⟨r, w2, h1, h2, h3, ?_⟩
  intro k fuel hk hc
  rw [hk, hc] at hnew
  rw [h2, Token_terminal_trace env fuel k w w1 _ hnew, fetchCount_append_fetch]

/-- Witness for C3: a cache with no credential over supplier 0, with the rejecting
callback attached. -/
theorem Token_refreshes_when_invalid_witness :
    ∃ r w2, (demoCache 0 none (some (.closure 1))).Token demoEnv
        (TokenSource.Token demoEnv 1) (demoWorld [] 0) = .ok (r, w2) ∧
      fetchCount w2.trace = fetchCount (World.mk ([] : List (Cache Nat)) 1 [.fetch 0]).trace ∧
      ((none : Option Nat) = none → r.1 = some 10) ∧
      (∀ k fuel, (demoCache 0 none (some (.closure 1))).new = .terminal k →
        TokenSource.Token demoEnv 1 = TokenSource.Token demoEnv (fuel + 1) →
        fetchCount w2.trace = fetchCount (demoWorld [] 0).trace + 1) :=
  Token_refreshes_when_invalid demoEnv (TokenSource.Token demoEnv 1)
    (demoCache 0 none (some (.closure 1))) (demoWorld [] 0) ⟨[], 1, [.fetch 0]⟩ (some 10) none
    rfl (Or.inl rfl) rfl
    (fun _ f hf => ⟨some 500, ⟨[], 1, [.fetch 0, .notify f (some 10)]⟩, by
      cases hf
      rfl⟩)

/-- C4: when the current credential is nil or not valid and the inner supplier fails
with error `e`, `Token` returns a nil credential with exactly `e`, and the state it
leaves is the state the supplier left, so no callback was invoked. For a cache at
address `a` the heap cell is the same after the call as before it, and a later call
through the same pointer (the credential still needing a refresh) goes to the inner
supplier again: it returns the supplier's new credential when the supplier now
succeeds, and the supplier's new error when it fails again. -/
theorem Token_supplier_failure (env : Env Tok Err σ) (fuel a : Nat) (s : Cache Tok)
    (w w1 : World Tok σ) (t0 : Option Tok) (e : Err)
    (ha : w.heap[a]? = some s) (hmu : s.mu = false)
    (hinv : s.t = none ∨ ∃ tok, s.t = some tok ∧ env.valid tok w.outside = false)
    (hnew : TokenSource.Token env fuel s.new w = .ok ((t0, some e), w1)) :
    s.Token env (TokenSource.Token env fuel) w = .ok ((none, some e), w1) ∧
    TokenSource.Token env (fuel + 1) (.ptr (some a)) w = .ok ((none, some e), w1) ∧
    w1.heap[a]? = some s ∧
    (∀ fuel2 c2 w2, Valid env w1.outside s.t = false →
      TokenSource.Token env fuel2 s.new w1 = .ok ((c2, none), w2) →
      (∀ f, s.notifyFunc = some f → ∃ e2 w3, callNotify env f c2 w2 = .ok (e2, w3)) →
      ∃ e2 w3, TokenSource.Token env (fuel2 + 1) (.ptr (some a)) w1 = .ok ((c2, e2), w3)) ∧
    (∀ fuel2 t2 e2 w2, Valid env w1.outside s.t = false →
      TokenSource.Token env fuel2 s.new w1 = .ok ((t2, some e2), w2) →
      TokenSource.Token env (fuel2 + 1) (.ptr (some a)) w1 = .ok ((none, some e2), w2)) := by
  have hv := Valid_eq_false env w.outside s.t hinv
  have hbody := Token_body_fail env (TokenSource.Token env fuel) s w w1 t0 e hmu hv hnew
  have hheap : w1.heap[a]? = some s := by
    rw [TokenSource_Token_heap env fuel s.new w w1 _ hnew]
    exact ha
  refine ⟨hbody, ?_, hheap, ?_, ?_⟩
  · rw [Token_ptr env fuel a s w ha]
    exact hbody
  · intro fuel2 c2 w2 hv2 hnew2 hcb
    obtain ⟨e2, w3, h3, _⟩ :=
      Token_body_success env (TokenSource.Token env fuel2) s w1 w2 c2 hmu hv2 hnew2 hcb
    exact ⟨e2, w3, by rw [Token_ptr env fuel2 a s w1 hheap]; exact h3⟩
  · intro fuel2 t2 e2 w2 hv2 hnew2
    rw [Token_ptr env fuel2 a s w1 hheap]
    exact Token_body_fail env (TokenSource.Token env fuel2) s w1 w2 t2 e2 hmu hv2 hnew2

/-- Witness for C4: a cache at address 0 with no credential over supplier 2, called at
time 0 (the supplier fails with 503) and again at time 1 (the supplier issues 11). -/
theorem Token_supplier_failure_witness :
    TokenSource.Token demoEnv 2 (.ptr (some 0))
        (demoWorld [demoCache 2 none (some (.closure 0))] 0)
      = .ok ((none, some 503), ⟨[demoCache 2 none (some (.closure 0))], 1, [.fetch 2]⟩) ∧
    (World.mk [demoCache 2 none (some (.closure 0))] 1 [Event.fetch 2]).heap[0]?
      = some (demoCache 2 none (some (.closure 0))) ∧
    ∃ e2 w3, TokenSource.Token demoEnv 2 (.ptr (some 0))
        ⟨[demoCache 2 none (some (.closure 0))], 1, [.fetch 2]⟩ = .ok ((some 11, e2), w3) :=
  let h := Token_supplier_failure demoEnv 1 0 (demoCache 2 none (some (.closure 0)))
    (demoWorld [demoCache 2 none (some (.closure 0))] 0)
    ⟨[demoCache 2 none (some (.closure 0))], 1, [.fetch 2]⟩ none 503
    rfl rfl (Or.inl rfl) rfl
  ⟨h.2.1, h.2.2.1,
    h.2.2.2.1 1 (some 11)
      ⟨[demoCache 2 none (some (.closure 0))], 2, [.fetch 2, .fetch 2]⟩ rfl rfl
      (fun f hf => ⟨none,
        ⟨[demoCache 2 none (some (.closure 0))], 2, [.fetch 2, .fetch 2, .notify f (some 11)]⟩,
        by
          cases hf
          rfl⟩)⟩

/-- C5: with callback `f` attached, when the refresh succeeds with credential `c` and
the call `f(c)` returns `e`, `Token` returns the pair `(c, e)`: the credential is the
new one (non-nil whenever `c` is), and the error is the callback's, nil included. -/
theorem Token_returns_callback_error (env : Env Tok Err σ)
    (call : TokenSource Tok → World Tok σ → Outcome Tok Err σ)
    (s : Cache Tok) (w w1 w2 : World Tok σ) (c : Option Tok) (f : TokenNotifyFunc)
    (e : Option Err)
    (hmu : s.mu = false)
    (hinv : s.t = none ∨ ∃ tok, s.t = some tok ∧ env.valid tok w.outside = false)
    (hnew : call s.new w = .ok ((c, none), w1))
    (hf : s.notifyFunc = some f) (hcb : callNotify env f c w1 = .ok (e, w2)) :
    s.Token env call w = .ok ((c, e), w2) :=
  Token_body_notify env call s w w1 w2 c f e hmu
    (Valid_eq_false env w.outside s.t hinv) hnew hf hcb

/-- Witness for C5: the rejecting callback 1 on a cache holding the expired token 3 at
time 5; the new token 15 comes back together with error 500. -/
theorem Token_returns_callback_error_witness :
    demoEnv.valid 3 5 = false ∧
    (demoCache 0 (some 3) (some (.closure 1))).Token demoEnv (TokenSource.Token demoEnv 1)
        (demoWorld [] 5)
      = .ok ((some 15, some 500), ⟨[], 6, [.fetch 0, .notify (.closure 1) (some 15)]⟩) :=
  ⟨rfl,
    Token_returns_callback_error demoEnv (TokenSource.Token demoEnv 1)
      (demoCache 0 (some 3) (some (.closure 1))) (demoWorld [] 5) ⟨[], 6, [.fetch 0]⟩
      ⟨[], 6, [.fetch 0, .notify (.closure 1) (some 15)]⟩ (some 15) (.closure 1) (some 500)
      rfl (Or.inr ⟨3, rfl, rfl⟩) rfl rfl rfl⟩

/-- C6: for a cache with callback `f` attached and a free mutex, one `Token` call
falls under exactly one of three cases. When the cached credential is valid the
state is left as it was; when the inner supplier fails the state is left as the
supplier left it; in both cases no callback event is added. When the inner supplier
succeeds with `c`, the state after the call is the state after the single call
`f(c)` made from the state the supplier left, and the log is the supplier's log
followed by the one event `notify f c`. -/
theorem Token_notifies_once_per_refresh (env : Env Tok Err σ)
    (call : TokenSource Tok → World Tok σ → Outcome Tok Err σ)
    (s : Cache Tok) (w : World Tok σ) (f : TokenNotifyFunc)
    (hmu : s.mu = false) (hf : s.notifyFunc = some f) :
    (Valid env w.outside s.t = true → s.Token env call w = .ok ((s.t, none), w)) ∧
    (∀ t0 e w1, Valid env w.outside s.t = false → call s.new w = .ok ((t0, some e), w1) →
      s.Token env call w = .ok ((none, some e), w1)) ∧
    (∀ c w1 e w2, Valid env w.outside s.t = false → call s.new w = .ok ((c, none), w1) →
      callNotify env f c w1 = .ok (e, w2) →
      s.Token env call w = .ok ((c, e), w2) ∧
      w2.trace = w1.trace ++ [Event.notify f c] ∧
      notifyCount w2.trace = notifyCount w1.trace + 1) := by
  refine ⟨fun hv => ?_, ?_, ?_⟩
  · simp [notifyRefreshTokenSource.Token, hmu, hv]
  · intro t0 e w1 hv hnew
    exact Token_body_fail env call s w w1 t0 e hmu hv hnew
  · intro c w1 e w2 hv hnew hcb
    have ht := callNotify_trace env f c w1 w2 e hcb
    refine ⟨Token_body_notify env call s w w1 w2 c f e hmu hv hnew hf hcb, ht, ?_⟩
    rw [ht, notifyCount_append_notify]

/-- Witness for C6: callback 0 on a cache over supplier 0, with a valid token (time
0, token 5) and with an expired one (time 7, token 5). -/
theorem Token_notifies_once_per_refresh_witness :
    (demoCache 0 (some 5) (some (.closure 0))).Token demoEnv (TokenSource.Token demoEnv 1)
        (demoWorld [] 0) = .ok ((some 5, none), demoWorld [] 0) ∧
    (demoCache 0 (some 5) (some (.closure 0))).Token demoEnv (TokenSource.Token demoEnv 1)
        (demoWorld [] 7)
      = .ok ((some 17, none), ⟨[], 8, [.fetch 0, .notify (.closure 0) (some 17)]⟩) :=
  ⟨((Token_notifies_once_per_refresh demoEnv (TokenSource.Token demoEnv 1)
      (demoCache 0 (some 5) (some (.closure 0))) (demoWorld [] 0) (.closure 0) rfl rfl).1
      rfl),
   ((Token_notifies_once_per_refresh demoEnv (TokenSource.Token demoEnv 1)
      (demoCache 0 (some 5) (some (.closure 0))) (demoWorld [] 7) (.closure 0) rfl rfl).2.2
      (some 17) ⟨[], 8, [.fetch 0]⟩ none ⟨[], 8, [.fetch 0, .notify (.closure 0) (some 17)]⟩
      rfl rfl rfl).1⟩

/-- A cell the constructor has just allocated (its address lies beyond the heap the
constructor was given) holds the initial credential, a free mutex and the
package-level `notifyFunc` as its callback. -/
theorem NotifyRefreshTokenSource_fresh_cell (t : Option Tok) (src : TokenSource Tok)
    (w w1 : World Tok σ) (a : Nat) (s : Cache Tok)
    (h : NotifyRefreshTokenSource t src w = .ok (some a, w1))
    (hfresh : w.heap.length ≤ a) (hs : w1.heap[a]? = some s) :
    s.t = t ∧ s.mu = false ∧ s.notifyFunc = some .notifyFunc := by
  have halloc : ∀ cell : Cache Tok, Except.ok (alloc cell w) = Except.ok (ε := Fault) (some a, w1) →
      cell.t = t → cell.mu = false → cell.notifyFunc = some .notifyFunc →
      s.t = t ∧ s.mu = false ∧ s.notifyFunc = some .notifyFunc := by
    intro cell hc h1 h2 h3
    simp only [alloc, Except.ok.injEq, Prod.mk.injEq, Option.some.injEq] at hc
    obtain ⟨hlen, hw⟩ := hc
    rw [← hw, ← hlen] at hs
    simp only [List.getElem?_concat_length, Option.some.injEq] at hs
    rw [← hs]
    exact ⟨h1, h2, h3⟩
  unfold NotifyRefreshTokenSource at h
  split at h
  · rename_i rt
    split at h
    · simp only [Except.ok.injEq, Prod.mk.injEq] at h
      obtain ⟨_, hw⟩ := h
      rw [← hw, List.getElem?_eq_none hfresh] at hs
      exact absurd hs (by simp)
    · split at h
      · exact absurd h (by simp)
      · split at h
        · exact absurd h (by simp)
        · exact halloc _ h rfl rfl rfl
  · exact halloc _ h rfl rfl rfl

/-- C7: a cache with no caller-supplied callback, either the result of
`WithNotifyFunc(nil)` or a cell freshly allocated by the constructor, returns
`(c, nil)` from a refresh that obtains credential `c`. -/
theorem Token_without_callback (env : Env Tok Err σ)
    (call : TokenSource Tok → World Tok σ → Outcome Tok Err σ)
    (s : Cache Tok) (w w1 : World Tok σ) (c : Option Tok)
    (horigin : (∃ s0 : Cache Tok, s = s0.WithNotifyFunc none) ∨
      (∃ (t : Option Tok) (src : TokenSource Tok) (w0 w0a : World Tok σ) (a : Nat),
        NotifyRefreshTokenSource t src w0 = .ok (some a, w0a) ∧
        w0.heap.length ≤ a ∧ w0a.heap[a]? = some s))
    (hmu : s.mu = false)
    (hinv : s.t = none ∨ ∃ tok, s.t = some tok ∧ env.valid tok w.outside = false)
    (hnew : call s.new w = .ok ((c, none), w1)) :
    ∃ w2, s.Token env call w = .ok ((c, none), w2) := by
  have hv := Valid_eq_false env w.outside s.t hinv
  rcases horigin with ⟨s0, hs0⟩ | ⟨t, src, w0, w0a, a, hcons, hfresh, hs⟩
  · have hf : s.notifyFunc = none := by
      rw [hs0]
      rfl
    exact ⟨w1, Token_body_no_notify env call s w w1 c hmu hv hnew hf⟩
  · have hf := (NotifyRefreshTokenSource_fresh_cell t src w0 w0a a s hcons hfresh hs).2.2
    exact ⟨{ w1 with trace := w1.trace ++ [Event.notify .notifyFunc c] },
      Token_body_notify env call s w w1 _ c .notifyFunc none hmu hv hnew hf rfl⟩

/-- Witness for C7: the cache obtained from a user of callback 1 by
`WithNotifyFunc(nil)`, and the cell the constructor allocates over supplier 0. -/
theorem Token_without_callback_witness :
    (∃ w2, ((demoCache 0 none (some (.closure 1))).WithNotifyFunc none).Token demoEnv
        (TokenSource.Token demoEnv 1) (demoWorld [] 0) = .ok ((some 10, none), w2)) ∧
    NotifyRefreshTokenSource (none : Option Nat) (.terminal 0) (demoWorld [] 0)
      = .ok (some 0, demoWorld [demoCache 0 none (some .notifyFunc)] 0) ∧
    (∃ w2, (demoCache 0 none (some .notifyFunc)).Token demoEnv
        (TokenSource.Token demoEnv 1) (demoWorld [demoCache 0 none (some .notifyFunc)] 0)
      = .ok ((some 10, none), w2)) :=
  ⟨Token_without_callback demoEnv (TokenSource.Token demoEnv 1)
    ((demoCache 0 none (some (.closure 1))).WithNotifyFunc none) (demoWorld [] 0)
    ⟨[], 1, [.fetch 0]⟩ (some 10)
    (Or.inl ⟨demoCache 0 none (some (.closure 1)), rfl⟩) rfl (Or.inl rfl) rfl,
   rfl,
   Token_without_callback demoEnv (TokenSource.Token demoEnv 1)
    (demoCache 0 none (some .notifyFunc)) (demoWorld [demoCache 0 none (some .notifyFunc)] 0)
    ⟨[demoCache 0 none (some .notifyFunc)], 1, [.fetch 0]⟩ (some 10)
    (Or.inr ⟨none, .terminal 0, demoWorld [] 0,
      demoWorld [demoCache 0 none (some .notifyFunc)] 0, 0, rfl, Nat.le_refl 0, rfl⟩)
    rfl (Or.inl rfl) rfl⟩

/-- The pointer path of lines 21-25: handed a nil initial credential and a pointer
`rt` to an existing cache, the
constructor returns the pointer `rt` itself and leaves the whole state, the heap
included, as it was: no cell is allocated and the cell `rt` points to keeps its
credential, inner supplier and callback. In particular, passing a pointer the
constructor returned back to it with a nil credential returns that same pointer. -/
theorem NotifyRefreshTokenSource_reuses_cache (rt : Option Nat) (w : World Tok σ) :
    NotifyRefreshTokenSource none (.ptr rt) w = .ok (rt, w) ∧
    (∀ (a : Nat) (s : Cache Tok), rt = some a → w.heap[a]? = some s →
      ∃ w1, NotifyRefreshTokenSource none (.ptr rt) w = .ok (some a, w1) ∧
        w1.heap[a]? = some s ∧ w1.heap.length = w.heap.length) ∧
    (∀ (t : Option Tok) (src : TokenSource Tok) (w0 : World Tok σ),
      NotifyRefreshTokenSource t src w0 = .ok (rt, w) →
      NotifyRefreshTokenSource none (.ptr rt) w = .ok (rt, w)) := by
  have h : NotifyRefreshTokenSource none (.ptr rt) w = .ok (rt, w) := rfl
  refine ⟨h, ?_, fun _ _ _ _ => h⟩
  intro a s hrt hs
  exact ⟨w, by rw [h, hrt], hs, rfl⟩

/-- The pointer path on an example: the cache the constructor builds over supplier 0,
passed back to the constructor with a nil credential. -/
theorem NotifyRefreshTokenSource_reuses_cache_witness :
    NotifyRefreshTokenSource (some 5) (.terminal 0) (demoWorld [] 0)
      = .ok (some 0, demoWorld [demoCache 0 (some 5) (some .notifyFunc)] 0) ∧
    NotifyRefreshTokenSource (none : Option Nat) (.ptr (some 0))
        (demoWorld [demoCache 0 (some 5) (some .notifyFunc)] 0)
      = .ok (some 0, demoWorld [demoCache 0 (some 5) (some .notifyFunc)] 0) :=
  ⟨rfl,
   (NotifyRefreshTokenSource_reuses_cache (some 0)
      (demoWorld [demoCache 0 (some 5) (some .notifyFunc)] 0)).2.2
      (some 5) (.terminal 0) (demoWorld [] 0) rfl⟩

/-- The pointer path of lines 21-32: handed a non-nil initial credential `tok` and a
pointer to an existing cache
`rt`, the constructor allocates a new cell, at an address different from that of
`rt`. The new cell holds `tok`, has for inner supplier the inner supplier of `rt`
(the field `rt.new`, not the pointer to `rt`), has the package-level `notifyFunc`
for callback and a free mutex; neither the credential nor the callback of `rt`
appears in it. Every cell already on the heap, that of `rt` included, is left as it
was, and so are the outside state and the log. -/
theorem NotifyRefreshTokenSource_unwraps_cache (tok : Tok) (a : Nat) (rt : Cache Tok)
    (w : World Tok σ) (ha : w.heap[a]? = some rt) :
    NotifyRefreshTokenSource (some tok) (.ptr (some a)) w
      = .ok (some w.heap.length,
          { w with heap := w.heap ++
              [{ new := rt.new, mu := false, t := some tok, notifyFunc := some .notifyFunc }] }) ∧
    w.heap.length ≠ a ∧
    (w.heap ++ [({ new := rt.new, mu := false, t := some tok, notifyFunc := some .notifyFunc } :
        Cache Tok)])[w.heap.length]?
      = some { new := rt.new, mu := false, t := some tok, notifyFunc := some .notifyFunc } ∧
    (∀ b, b < w.heap.length →
      (w.heap ++ [({ new := rt.new, mu := false, t := some tok, notifyFunc := some .notifyFunc } :
        Cache Tok)])[b]? = w.heap[b]?) ∧
    (w.heap ++ [({ new := rt.new, mu := false, t := some tok, notifyFunc := some .notifyFunc } :
        Cache Tok)])[a]? = some rt := by
  have hlt : a < w.heap.length := by
    by_contra hge
    rw [List.getElem?_eq_none (Nat.le_of_not_lt hge)] at ha
    exact absurd ha (by simp)
  refine ⟨?_, Nat.ne_of_gt hlt, ?_, ?_, ?_⟩
  · simp only [NotifyRefreshTokenSource, ha, alloc]
  · exact List.getElem?_concat_length _ _
  · intro b hb
    exact List.getElem?_append_left hb
  · rw [List.getElem?_append_left hlt]
    exact ha

/-- The pointer path on an example: an existing cache at address 0 over supplier 2,
holding token 4 and callback 1, passed to the constructor with token 9. -/
theorem NotifyRefreshTokenSource_unwraps_cache_witness :
    NotifyRefreshTokenSource (some 9) (.ptr (some 0))
        (demoWorld [demoCache 2 (some 4) (some (.closure 1))] 0)
      = .ok (some 1, demoWorld [demoCache 2 (some 4) (some (.closure 1)),
          demoCache 2 (some 9) (some .notifyFunc)] 0) :=
  (NotifyRefreshTokenSource_unwraps_cache 9 0 (demoCache 2 (some 4) (some (.closure 1)))
    (demoWorld [demoCache 2 (some 4) (some (.closure 1))] 0) rfl).1

/-- C8 (the code at a failing input): a cache is built over supplier 0 with the valid
token 5, and callback 0 is attached with `WithNotifyFunc`, which returns the cache
by value. Handed that cache and a nil initial credential, the constructor does not
return it: the type assertion to `*notifyRefreshTokenSource` does not match a struct
held by value, so a new cell is allocated at the fresh address 1, holding no
credential, the package-level `notifyFunc`, and the given cache as inner supplier.
This is so for every cache held by value, in every state. -/
theorem NotifyRefreshTokenSource_nil_wraps_value_cache :
    NotifyRefreshTokenSource (some 5) (.terminal 0) (demoWorld [] 0)
      = .ok (some 0, demoWorld [demoCache 0 (some 5) (some .notifyFunc)] 0) ∧
    callWithNotifyFunc (some 0) (some (.closure 0))
        (demoWorld [demoCache 0 (some 5) (some .notifyFunc)] 0)
      = .ok (demoCache 0 (some 5) (some (.closure 0)),
          demoWorld [demoCache 0 (some 5) (some .notifyFunc)] 0) ∧
    NotifyRefreshTokenSource none (.val (demoCache 0 (some 5) (some (.closure 0))))
        (demoWorld [demoCache 0 (some 5) (some .notifyFunc)] 0)
      = .ok (some 1, demoWorld [demoCache 0 (some 5) (some .notifyFunc),
          { new := .val (demoCache 0 (some 5) (some (.closure 0))), mu := false, t := none,
            notifyFunc := some .notifyFunc }] 0) ∧
    (∀ (s : Cache Nat) (w : World Nat Nat),
      NotifyRefreshTokenSource none (.val s) w
        = .ok (some w.heap.length, { w with heap := w.heap ++
            [{ new := .val s, mu := false, t := none, notifyFunc := some .notifyFunc }] })) :=
  ⟨rfl, rfl, rfl, fun _ _ => rfl⟩

/-- C9 (the code at a failing input): an existing cache over supplier 2 that holds
token 4 and callback 1 is held by value, as `WithNotifyFunc` returns it. Handed that
cache and the non-nil credential 9, the constructor allocates a cell whose inner
supplier is the given cache itself, not the cache's inner supplier (supplier 2):
the type assertion to `*notifyRefreshTokenSource` does not match a struct held by
value, so the line `src = rt.new` is not reached. This is so for every cache held
by value and every credential, in every state. -/
theorem NotifyRefreshTokenSource_keeps_value_cache_as_supplier :
    callWithNotifyFunc (some 0) (some (.closure 1))
        (demoWorld [demoCache 2 (some 4) (some .notifyFunc)] 0)
      = .ok (demoCache 2 (some 4) (some (.closure 1)),
          demoWorld [demoCache 2 (some 4) (some .notifyFunc)] 0) ∧
    NotifyRefreshTokenSource (some 9) (.val (demoCache 2 (some 4) (some (.closure 1))))
        (demoWorld [demoCache 2 (some 4) (some .notifyFunc)] 0)
      = .ok (some 1, demoWorld [demoCache 2 (some 4) (some .notifyFunc),
          { new := .val (demoCache 2 (some 4) (some (.closure 1))), mu := false, t := some 9,
            notifyFunc := some .notifyFunc }] 0) ∧
    (demoCache 2 (some 4) (some (.closure 1))).new = .terminal 2 ∧
    (TokenSource.val (demoCache 2 (some 4) (some (.closure 1)))).isCache = true ∧
    (demoCache 2 (some 4) (some (.closure 1))).new.isCache = false ∧
    (∀ (tok : Nat) (s : Cache Nat) (w : World Nat Nat),
      NotifyRefreshTokenSource (some tok) (.val s) w
        = .ok (some w.heap.length, { w with heap := w.heap ++
            [{ new := .val s, mu := false, t := some tok, notifyFunc := some .notifyFunc }] })) :=
  ⟨rfl, rfl, rfl, rfl, rfl, fun _ _ _ => rfl⟩

/-- C10: handed any initial credential `t`, nil or not, and a supplier `src` that is
not one of this package's caches, the constructor allocates a cell holding `t`, with
`src` for inner supplier, the package-level `notifyFunc` for callback and a free
mutex, and returns its address; the rest of the state is left as it was. -/
theorem NotifyRefreshTokenSource_wraps_supplier (t : Option Tok) (src : TokenSource Tok)
    (w : World Tok σ) (hsrc : src.isCache = false) :
    NotifyRefreshTokenSource t src w
      = .ok (some w.heap.length,
          { w with heap := w.heap ++
              [{ new := src, mu := false, t := t, notifyFunc := some .notifyFunc }] }) ∧
    (w.heap ++ [({ new := src, mu := false, t := t, notifyFunc := some .notifyFunc } :
        Cache Tok)])[w.heap.length]?
      = some { new := src, mu := false, t := t, notifyFunc := some .notifyFunc } ∧
    (∀ b, b < w.heap.length →
      (w.heap ++ [({ new := src, mu := false, t := t, notifyFunc := some .notifyFunc } :
        Cache Tok)])[b]? = w.heap[b]?) := by
  refine ⟨?_, List.getElem?_concat_length _ _, fun b hb => List.getElem?_append_left hb⟩
  cases src with
  | nil => rfl
  | terminal k => rfl
  | ptr p => exact absurd hsrc (by simp [TokenSource.isCache])
  | val s0 => exact absurd hsrc (by simp [TokenSource.isCache])

/-- Witness for C10: supplier 1 wrapped with a nil credential on a heap that already
holds one cache. -/
theorem NotifyRefreshTokenSource_wraps_supplier_witness :
    NotifyRefreshTokenSource (none : Option Nat) (.terminal 1)
        (demoWorld [demoCache 0 (some 5) (some (.closure 0))] 3)
      = .ok (some 1, demoWorld [demoCache 0 (some 5) (some (.closure 0)),
          demoCache 1 none (some .notifyFunc)] 3) :=
  (NotifyRefreshTokenSource_wraps_supplier none (.terminal 1)
    (demoWorld [demoCache 0 (some 5) (some (.closure 0))] 3) rfl).1

/-- Every returning run of the body of `Token` is one of four: the cached credential
was valid; the inner supplier failed; the inner supplier succeeded and the callback
field was nil; the inner supplier succeeded and the callback returned. -/
theorem Token_body_inv (env : Env Tok Err σ)
    (call : TokenSource Tok → World Tok σ → Outcome Tok Err σ)
    (s : Cache Tok) (w w2 : World Tok σ) (r : Option Tok × Option Err)
    (h : s.Token env call w = .ok (r, w2)) :
    s.mu = false ∧
    ((Valid env w.outside s.t = true ∧ r = (s.t, none) ∧ w2 = w) ∨
     (Valid env w.outside s.t = false ∧
       ∃ t0 e, call s.new w = .ok ((t0, some e), w2) ∧ r = (none, some e)) ∨
     (Valid env w.outside s.t = false ∧
       ∃ c, call s.new w = .ok ((c, none), w2) ∧ s.notifyFunc = none ∧ r = (c, none)) ∨
     (Valid env w.outside s.t = false ∧
       ∃ c w1 f e, call s.new w = .ok ((c, none), w1) ∧ s.notifyFunc = some f ∧
         callNotify env f c w1 = .ok (e, w2) ∧ r = (c, e))) := by
  unfold notifyRefreshTokenSource.Token at h
  split at h
  · exact absurd h (by simp)
  · rename_i hmu
    refine ⟨by simpa using hmu, ?_⟩
    simp only at h
    split at h
    · rename_i hv
      simp only [Except.ok.injEq, Prod.mk.injEq] at h
      exact Or.inl ⟨hv, h.1.symm, h.2.symm⟩
    · rename_i hv
      have hv2 : Valid env w.outside s.t = false := by simpa using hv
      split at h
      · exact absurd h (by simp)
      · rename_i t0 e w1 hc
        simp only [Except.ok.injEq, Prod.mk.injEq] at h
        refine Or.inr (Or.inl ⟨hv2, t0, e, ?_, h.1.symm⟩)
        rw [← h.2]
        exact hc
      · rename_i c w1 hc
        split at h
        · rename_i f hf
          split at h
          · exact absurd h (by simp)
          · rename_i e w3 hn
            simp only [Except.ok.injEq, Prod.mk.injEq] at h
            refine Or.inr (Or.inr (Or.inr ⟨hv2, c, w1, f, e, hc, hf, ?_, h.1.symm⟩))
            rw [← h.2]
            exact hn
        · rename_i hf
          simp only [Except.ok.injEq, Prod.mk.injEq] at h
          refine Or.inr (Or.inr (Or.inl ⟨hv2, c, ?_, hf, h.1.symm⟩))
          rw [← h.2]
          exact hc

/-- Appending an invocation of another callback does not change the number of
invocations of `f`. -/
theorem notifyCountOf_append_other (f g : TokenNotifyFunc) (hne : g ≠ f)
    (tr : List (Event Tok)) (t : Option Tok) :
    notifyCountOf f (tr ++ [Event.notify g t]) = notifyCountOf f tr := by
  simp [notifyCountOf, List.filter_append, hne]

/-- Appending an invocation of `f` adds one to the number of invocations of `f`. -/
theorem notifyCountOf_append_self (f : TokenNotifyFunc) (tr : List (Event Tok))
    (t : Option Tok) :
    notifyCountOf f (tr ++ [Event.notify f t]) = notifyCountOf f tr + 1 := by
  simp [notifyCountOf, List.filter_append]

/-- C11: the cache returned by `s.WithNotifyFunc(f)` has callback `f`, and its current
credential, inner supplier and mutex are those of `s`: it is `s` with the callback
field replaced. The same holds for the call through a pointer to `s`, which
returns that value and leaves the state as it was. -/
theorem WithNotifyFunc_changes_only_callback (s : Cache Tok) (f : Option TokenNotifyFunc)
    (a : Nat) (w : World Tok σ) :
    (s.WithNotifyFunc f).notifyFunc = f ∧
    (s.WithNotifyFunc f).t = s.t ∧
    (s.WithNotifyFunc f).new = s.new ∧
    (s.WithNotifyFunc f).mu = s.mu ∧
    s.WithNotifyFunc f = { s with notifyFunc := f } ∧
    (w.heap[a]? = some s →
      callWithNotifyFunc (some a) f w = .ok ({ s with notifyFunc := f }, w)) := by
  refine ⟨rfl, rfl, rfl, rfl, rfl, fun ha => ?_⟩
  simp only [callWithNotifyFunc, ha, notifyRefreshTokenSource.WithNotifyFunc]

/-- Witness for C11: callback 1 attached to a cache at address 0 that holds token 5
over supplier 2 with callback 0. -/
theorem WithNotifyFunc_changes_only_callback_witness :
    (demoCache 2 (some 5) (some (.closure 0))).WithNotifyFunc (some (.closure 1))
      = demoCache 2 (some 5) (some (.closure 1)) ∧
    callWithNotifyFunc (some 0) (some (.closure 1))
        (demoWorld [demoCache 2 (some 5) (some (.closure 0))] 0)
      = .ok (demoCache 2 (some 5) (some (.closure 1)),
          demoWorld [demoCache 2 (some 5) (some (.closure 0))] 0) :=
  let h := WithNotifyFunc_changes_only_callback (demoCache 2 (some 5) (some (.closure 0)))
    (some (.closure 1)) 0 (demoWorld [demoCache 2 (some 5) (some (.closure 0))] 0)
  ⟨h.2.2.2.2.1, h.2.2.2.2.2 rfl⟩

/-- C12: attaching callback `A` and then callback `B` gives the same cache as
attaching `B` alone. On the next successful refresh of that cache, with `B` the
function `b`, the log is the supplier's log followed by the one event `notify b c`,
and the number of invocations of any other callback, `A` included, is what the
supplier left. -/
theorem WithNotifyFunc_last_write_wins (env : Env Tok Err σ)
    (call : TokenSource Tok → World Tok σ → Outcome Tok Err σ)
    (s : Cache Tok) (A B : Option TokenNotifyFunc) :
    (s.WithNotifyFunc A).WithNotifyFunc B = s.WithNotifyFunc B ∧
    (∀ (b : TokenNotifyFunc) (w w1 w2 : World Tok σ) (c : Option Tok) (e : Option Err),
      B = some b → s.mu = false → Valid env w.outside s.t = false →
      call s.new w = .ok ((c, none), w1) → callNotify env b c w1 = .ok (e, w2) →
      ((s.WithNotifyFunc A).WithNotifyFunc B).Token env call w = .ok ((c, e), w2) ∧
      w2.trace = w1.trace ++ [Event.notify b c] ∧
      (∀ a, a ≠ b → notifyCountOf a w2.trace = notifyCountOf a w1.trace)) := by
  refine ⟨rfl, ?_⟩
  intro b w w1 w2 c e hB hmu hv hnew hcb
  have ht := callNotify_trace env b c w1 w2 e hcb
  refine ⟨?_, ht, ?_⟩
  · exact Token_body_notify env call ((s.WithNotifyFunc A).WithNotifyFunc B) w w1 w2 c b e
      hmu hv hnew hB hcb
  · intro a hab
    rw [ht]
    exact notifyCountOf_append_other a b (fun h => hab h.symm) w1.trace c

/-- Witness for C12: callback 1 and then callback 0 attached to a cache over supplier
0; on the refresh callback 0 runs once and callback 1 not at all. -/
theorem WithNotifyFunc_last_write_wins_witness :
    (((demoCache 0 none none).WithNotifyFunc (some (.closure 1))).WithNotifyFunc
        (some (.closure 0))).Token demoEnv (TokenSource.Token demoEnv 1) (demoWorld [] 0)
      = .ok ((some 10, none), ⟨[], 1, [.fetch 0, .notify (.closure 0) (some 10)]⟩) ∧
    notifyCountOf (.closure 1)
        (World.mk ([] : List (Cache Nat)) 1
          [.fetch 0, .notify (.closure 0) (some 10)]).trace
      = notifyCountOf (.closure 1) (World.mk ([] : List (Cache Nat)) 1 [.fetch 0]).trace :=
  let h := (WithNotifyFunc_last_write_wins demoEnv (TokenSource.Token demoEnv 1)
    (demoCache 0 none none) (some (.closure 1)) (some (.closure 0))).2 (.closure 0)
    (demoWorld [] 0) ⟨[], 1, [.fetch 0]⟩ ⟨[], 1, [.fetch 0, .notify (.closure 0) (some 10)]⟩
    (some 10) none rfl rfl rfl rfl rfl
  ⟨h.1, h.2.2 (.closure 1) (by decide)⟩

/-- C13 (the claim fails here): supplier 0 of `looseEnv` returns a nil credential with
a nil error, so it did not fail, and the callback then rejects with error 500.
`Token` returns that error with a nil credential: the credential is nil although
the error is the callback's and not the supplier's. -/
theorem Token_nil_credential_with_callback_error :
    TokenSource.Token looseEnv 1 (.terminal 0) (demoWorld [] 0)
      = .ok ((none, none), ⟨[], 1, [.fetch 0]⟩) ∧
    callNotify looseEnv (.closure 0) none
        (World.mk ([] : List (Cache Nat)) 1 [Event.fetch 0])
      = .ok (some 500, ⟨[], 1, [.fetch 0, .notify (.closure 0) none]⟩) ∧
    (demoCache 0 none (some (.closure 0))).Token looseEnv (TokenSource.Token looseEnv 1)
        (demoWorld [] 0)
      = .ok ((none, some 500), ⟨[], 1, [.fetch 0, .notify (.closure 0) none]⟩) ∧
    ¬ ∃ t0 w1, TokenSource.Token looseEnv 1 (.terminal 0) (demoWorld [] 0)
      = .ok ((t0, some 500), w1) := by
  refine ⟨rfl, rfl, rfl, ?_⟩
  rintro ⟨t0, w1, h⟩
  have h2 : TokenSource.Token looseEnv 1 (.terminal 0) (demoWorld [] 0)
      = .ok ((none, none), ⟨[], 1, [.fetch 0]⟩) := rfl
  rw [h2] at h
  simp at h

/-- C13 (amended): when a successful inner supplier never returns a nil credential,
every `Token` call that returns a non-nil error `e` returns a nil credential exactly
when `e` is the error the inner supplier failed with, and a non-nil credential
exactly when the inner supplier succeeded and `e` is the error the callback
returned. -/
theorem Token_error_credential (env : Env Tok Err σ)
    (call : TokenSource Tok → World Tok σ → Outcome Tok Err σ)
    (s : Cache Tok) (w w2 : World Tok σ) (cred : Option Tok) (e : Err)
    (hret : s.Token env call w = .ok ((cred, some e), w2))
    (hsup : ∀ c w1, call s.new w = .ok ((c, none), w1) → c ≠ none) :
    (cred = none ↔ ∃ t0, call s.new w = .ok ((t0, some e), w2)) ∧
    (cred ≠ none ↔ ∃ c w1 f, call s.new w = .ok ((c, none), w1) ∧
      s.notifyFunc = some f ∧ callNotify env f c w1 = .ok (some e, w2)) := by
  obtain ⟨_, hcase⟩ := Token_body_inv env call s w w2 _ hret
  rcases hcase with ⟨_, hr, _⟩ | ⟨_, t0, e0, hc, hr⟩ | ⟨_, c, _, _, hr⟩ |
    ⟨_, c, w1, f, e0, hc, hf, hn, hr⟩
  · simp only [Prod.mk.injEq] at hr
    exact absurd hr.2 (by simp)
  · simp only [Prod.mk.injEq, Option.some.injEq] at hr
    obtain ⟨hcred, he⟩ := hr
    subst he
    subst hcred
    refine ⟨⟨fun _ => ⟨t0, hc⟩, fun _ => rfl⟩, ⟨fun h => absurd rfl h, ?_⟩⟩
    rintro ⟨c, w1, f, hc2, _, _⟩
    rw [hc] at hc2
    simp at hc2
  · simp only [Prod.mk.injEq] at hr
    exact absurd hr.2 (by simp)
  · simp only [Prod.mk.injEq] at hr
    obtain ⟨hcred, he⟩ := hr
    subst hcred
    subst he
    have hne : cred ≠ none := hsup cred w1 hc
    refine ⟨⟨fun h => absurd h hne, ?_⟩, ⟨fun _ => ⟨cred, w1, f, hc, hf, hn⟩, fun _ => hne⟩⟩
    rintro ⟨t0, hc2⟩
    rw [hc] at hc2
    simp at hc2

/-- Witness for C13: the rejecting callback 1 on a cache over supplier 0, which issues
the non-nil token 10. -/
theorem Token_error_credential_witness :
    (demoCache 0 none (some (.closure 1))).Token demoEnv (TokenSource.Token demoEnv 1)
        (demoWorld [] 0)
      = .ok ((some 10, some 500), ⟨[], 1, [.fetch 0, .notify (.closure 1) (some 10)]⟩) ∧
    ((some 10 : Option Nat) ≠ none ↔ ∃ c w1 f,
      TokenSource.Token demoEnv 1 (demoCache 0 none (some (.closure 1))).new (demoWorld [] 0)
        = .ok ((c, none), w1) ∧
      (demoCache 0 none (some (.closure 1))).notifyFunc = some f ∧
      callNotify demoEnv f c w1
        = .ok (some 500, ⟨[], 1, [.fetch 0, .notify (.closure 1) (some 10)]⟩)) :=
  ⟨rfl,
   (Token_error_credential demoEnv (TokenSource.Token demoEnv 1)
      (demoCache 0 none (some (.closure 1))) (demoWorld [] 0)
      ⟨[], 1, [.fetch 0, .notify (.closure 1) (some 10)]⟩ (some 10) 500 rfl
      (fun c w1 h => by
        have h2 : TokenSource.Token demoEnv 1
            (demoCache 0 none (some (.closure 1))).new (demoWorld [] 0)
            = .ok ((some 10, none), ⟨[], 1, [.fetch 0]⟩) := rfl
        rw [h2] at h
        simp only [Except.ok.injEq, Prod.mk.injEq] at h
        rw [← h.1.1]
        simp)).2⟩

/-- C14 (the code at a failing input): a cache is built over the terminal supplier 0,
callback 0 is attached with `WithNotifyFunc`, which returns the cache by value, and
the result is handed to the constructor again, with the credential 3 and with a nil
credential. The type assertion to `*notifyRefreshTokenSource` does not match a
struct held by value, so both times the constructor allocates a wrapper whose inner
supplier is that cache, not the terminal supplier: two cache layers are nested. -/
theorem NotifyRefreshTokenSource_nests_value_cache :
    NotifyRefreshTokenSource (none : Option Nat) (.terminal 0) (demoWorld [] 0)
      = .ok (some 0, demoWorld [demoCache 0 none (some .notifyFunc)] 0) ∧
    callWithNotifyFunc (some 0) (some (.closure 0))
        (demoWorld [demoCache 0 none (some .notifyFunc)] 0)
      = .ok (demoCache 0 none (some (.closure 0)),
          demoWorld [demoCache 0 none (some .notifyFunc)] 0) ∧
    NotifyRefreshTokenSource (some 3) (.val (demoCache 0 none (some (.closure 0))))
        (demoWorld [demoCache 0 none (some .notifyFunc)] 0)
      = .ok (some 1, demoWorld [demoCache 0 none (some .notifyFunc),
          { new := .val (demoCache 0 none (some (.closure 0))), mu := false, t := some 3,
            notifyFunc := some .notifyFunc }] 0) ∧
    NotifyRefreshTokenSource none (.val (demoCache 0 none (some (.closure 0))))
        (demoWorld [demoCache 0 none (some .notifyFunc)] 0)
      = .ok (some 1, demoWorld [demoCache 0 none (some .notifyFunc),
          { new := .val (demoCache 0 none (some (.closure 0))), mu := false, t := none,
            notifyFunc := some .notifyFunc }] 0) ∧
    (TokenSource.val (demoCache 0 none (some (.closure 0)))).isCache = true :=
  ⟨rfl, rfl, rfl, rfl, rfl⟩

/-- One `Token` call, in any state, on the cache held by value that has no credential,
supplier 0 and callback 0, in the world where the supplier always issues
credential 7: the call invokes the supplier and then the callback. -/
theorem Token_steady_once (w : World Nat Nat) :
    TokenSource.Token steadyEnv 2 (.val (demoCache 0 none (some (.closure 0)))) w
      = .ok ((some 7, none),
          { w with outside := w.outside + 1,
                   trace := w.trace ++ [.fetch 0] ++ [.notify (.closure 0) (some 7)] }) :=
  rfl

/-- C15 (the code on schedules in which the calls do not overlap): `n` `Token` calls,
one after the other, on a cache with no credential whose supplier always issues the
never-expiring credential 7 and whose callback counts its invocations. All `n`
calls return credential 7, but each of them invokes the supplier and the callback:
both are invoked `n` times, not once. The same is evaluated for three calls, also
through the pointer the constructor returns, whose heap cell still holds no
credential at the end. -/
theorem Token_repeated_calls_refresh_each_time :
    (∀ (n : Nat) (w : World Nat Nat), ∃ w2,
      repeatToken steadyEnv 2 (.val (demoCache 0 none (some (.closure 0)))) n w
        = .ok (List.replicate n (some 7, none), w2) ∧
      fetchCount w2.trace = fetchCount w.trace + n ∧
      notifyCountOf (.closure 0) w2.trace = notifyCountOf (.closure 0) w.trace + n) ∧
    repeatToken steadyEnv 2 (.val (demoCache 0 none (some (.closure 0)))) 3 (demoWorld [] 0)
      = .ok ([(some 7, none), (some 7, none), (some 7, none)],
          ⟨[], 3, [.fetch 0, .notify (.closure 0) (some 7), .fetch 0,
            .notify (.closure 0) (some 7), .fetch 0, .notify (.closure 0) (some 7)]⟩) ∧
    NotifyRefreshTokenSource (none : Option Nat) (.terminal 0) (demoWorld [] 0)
      = .ok (some 0, demoWorld [demoCache 0 none (some .notifyFunc)] 0) ∧
    repeatToken steadyEnv 2 (.ptr (some 0)) 3
        (demoWorld [demoCache 0 none (some .notifyFunc)] 0)
      = .ok ([(some 7, none), (some 7, none), (some 7, none)],
          ⟨[demoCache 0 none (some .notifyFunc)], 3,
            [.fetch 0, .notify .notifyFunc (some 7), .fetch 0,
             .notify .notifyFunc (some 7), .fetch 0, .notify .notifyFunc (some 7)]⟩) := by
  refine ⟨?_, rfl, rfl, rfl⟩
  intro n
  induction n with
  | zero =>
    intro w
    exact ⟨w, rfl, rfl, rfl⟩
  | succ k ih =>
    intro w
    obtain ⟨w2, h1, h2, h3⟩ := ih
      { w with outside := w.outside + 1,
               trace := w.trace ++ [.fetch 0] ++ [.notify (.closure 0) (some 7)] }
    refine ⟨w2, ?_, ?_, ?_⟩
    · simp only [repeatToken, Token_steady_once, h1, List.replicate_succ]
    · rw [h2, fetchCount_append_notify, fetchCount_append_fetch]
      omega
    · rw [h3, notifyCountOf_append_self]
      have hf : notifyCountOf (.closure 0) (w.trace ++ [Event.fetch 0])
          = notifyCountOf (.closure 0) w.trace := by
        simp [notifyCountOf, List.filter_append]
      rw [hf]
      omega

/-- C16: for a cache with a free mutex, an error of the inner supplier is returned as
it is; after a successful refresh the value the callback returns is returned as it
is; and whenever `Token` returns a non-nil error `e`, the credential needed a
refresh and `e` is either the error the inner supplier failed with or the error the
callback returned after the supplier succeeded. A valid cached credential, and a
successful refresh with a nil callback field, come back with a nil error. -/
theorem Token_error_origin (env : Env Tok Err σ)
    (call : TokenSource Tok → World Tok σ → Outcome Tok Err σ)
    (s : Cache Tok) (w : World Tok σ) (hmu : s.mu = false) :
    (∀ t0 e w1, Valid env w.outside s.t = false → call s.new w = .ok ((t0, some e), w1) →
      s.Token env call w = .ok ((none, some e), w1)) ∧
    (∀ c w1 f e w2, Valid env w.outside s.t = false → call s.new w = .ok ((c, none), w1) →
      s.notifyFunc = some f → callNotify env f c w1 = .ok (e, w2) →
      s.Token env call w = .ok ((c, e), w2)) ∧
    (∀ cred e w2, s.Token env call w = .ok ((cred, some e), w2) →
      Valid env w.outside s.t = false ∧
      ((∃ t0, call s.new w = .ok ((t0, some e), w2)) ∨
       (∃ c w1 f, call s.new w = .ok ((c, none), w1) ∧ s.notifyFunc = some f ∧
         callNotify env f c w1 = .ok (some e, w2)))) ∧
    (Valid env w.outside s.t = true → s.Token env call w = .ok ((s.t, none), w)) ∧
    (∀ c w1, Valid env w.outside s.t = false → call s.new w = .ok ((c, none), w1) →
      s.notifyFunc = none → s.Token env call w = .ok ((c, none), w1)) := by
  refine ⟨?_, ?_, ?_, ?_, ?_⟩
  · intro t0 e w1 hv hc
    exact Token_body_fail env call s w w1 t0 e hmu hv hc
  · intro c w1 f e w2 hv hc hf hn
    exact Token_body_notify env call s w w1 w2 c f e hmu hv hc hf hn
  · intro cred e w2 hret
    obtain ⟨_, hcase⟩ := Token_body_inv env call s w w2 _ hret
    rcases hcase with ⟨_, hr, _⟩ | ⟨hv, t0, e0, hc, hr⟩ | ⟨_, c, _, _, hr⟩ |
      ⟨hv, c, w1, f, e0, hc, hf, hn, hr⟩
    · simp only [Prod.mk.injEq] at hr
      exact absurd hr.2 (by simp)
    · simp only [Prod.mk.injEq, Option.some.injEq] at hr
      obtain ⟨_, he⟩ := hr
      subst he
      exact ⟨hv, Or.inl ⟨t0, hc⟩⟩
    · simp only [Prod.mk.injEq] at hr
      exact absurd hr.2 (by simp)
    · simp only [Prod.mk.injEq] at hr
      obtain ⟨_, he⟩ := hr
      subst he
      exact ⟨hv, Or.inr ⟨c, w1, f, hc, hf, hn⟩⟩
  · intro hv
    simp [notifyRefreshTokenSource.Token, hmu, hv]
  · intro c w1 hv hc hf
    exact Token_body_no_notify env call s w w1 c hmu hv hc hf

/-- Witness for C16: over the failing supplier 1 the error 401 comes back, and over
supplier 0 with the rejecting callback 1 the error 500 comes back. -/
theorem Token_error_origin_witness :
    (demoCache 1 none (some (.closure 1))).Token demoEnv (TokenSource.Token demoEnv 1)
        (demoWorld [] 0) = .ok ((none, some 401), ⟨[], 1, [.fetch 1]⟩) ∧
    (demoCache 0 none (some (.closure 1))).Token demoEnv (TokenSource.Token demoEnv 1)
        (demoWorld [] 0)
      = .ok ((some 10, some 500), ⟨[], 1, [.fetch 0, .notify (.closure 1) (some 10)]⟩) :=
  ⟨(Token_error_origin demoEnv (TokenSource.Token demoEnv 1)
      (demoCache 1 none (some (.closure 1))) (demoWorld [] 0) rfl).1 none 401
      ⟨[], 1, [.fetch 1]⟩ rfl rfl,
   (Token_error_origin demoEnv (TokenSource.Token demoEnv 1)
      (demoCache 0 none (some (.closure 1))) (demoWorld [] 0) rfl).2.1 (some 10)
      ⟨[], 1, [.fetch 0]⟩ (.closure 1) (some 500)
      ⟨[], 1, [.fetch 0, .notify (.closure 1) (some 10)]⟩ rfl rfl rfl rfl⟩

/-- C17: a call `p.WithNotifyFunc(f)` through a pointer to the cache `s` returns the
copy of `s` with callback `f` and leaves the state as it was: the cell `p` points to
still holds `s`, with its callback, credential and inner supplier. A later
successful refresh through `p` therefore invokes the callback `g` of `s`: the log
is the supplier's log followed by the one event `notify g c`, and when `f` is
another function than `g` its number of invocations is what the supplier left. -/
theorem WithNotifyFunc_leaves_receiver (env : Env Tok Err σ) (fuel a : Nat) (s : Cache Tok)
    (f : Option TokenNotifyFunc) (w : World Tok σ) (ha : w.heap[a]? = some s) :
    ∃ v wA, callWithNotifyFunc (some a) f w = .ok (v, wA) ∧
      v = { s with notifyFunc := f } ∧ wA = w ∧ wA.heap[a]? = some s ∧
      (∀ g w1 w2 c (e : Option Err), s.notifyFunc = some g → s.mu = false →
        Valid env wA.outside s.t = false →
        TokenSource.Token env fuel s.new wA = .ok ((c, none), w1) →
        callNotify env g c w1 = .ok (e, w2) →
        TokenSource.Token env (fuel + 1) (.ptr (some a)) wA = .ok ((c, e), w2) ∧
        w2.trace = w1.trace ++ [Event.notify g c] ∧
        (∀ f0, f = some f0 → f0 ≠ g →
          notifyCountOf f0 w2.trace = notifyCountOf f0 w1.trace)) := by
  refine ⟨{ s with notifyFunc := f }, w, ?_, rfl, rfl, ha, ?_⟩
  · simp only [callWithNotifyFunc, ha, notifyRefreshTokenSource.WithNotifyFunc]
  · intro g w1 w2 c e hg hmu hv hc hn
    have ht := callNotify_trace env g c w1 w2 e hn
    refine ⟨?_, ht, ?_⟩
    · rw [Token_ptr env fuel a s w ha]
      exact Token_body_notify env (TokenSource.Token env fuel) s w w1 w2 c g e hmu hv hc hg hn
    · intro f0 _ hne
      rw [ht]
      exact notifyCountOf_append_other f0 g (fun h => hne h.symm) w1.trace c

/-- Witness for C17: callback 1 attached through the pointer to a cache at address 0
that has callback 0; the refresh through the pointer afterwards runs callback 0. -/
theorem WithNotifyFunc_leaves_receiver_witness :
    callWithNotifyFunc (some 0) (some (.closure 1))
        (demoWorld [demoCache 0 none (some (.closure 0))] 0)
      = .ok (demoCache 0 none (some (.closure 1)),
          demoWorld [demoCache 0 none (some (.closure 0))] 0) ∧
    ∃ v wA, callWithNotifyFunc (some 0) (some (.closure 1))
        (demoWorld [demoCache 0 none (some (.closure 0))] 0) = .ok (v, wA) ∧
      v = { demoCache 0 none (some (.closure 0)) with notifyFunc := some (.closure 1) } ∧
      wA = demoWorld [demoCache 0 none (some (.closure 0))] 0 ∧
      wA.heap[0]? = some (demoCache 0 none (some (.closure 0))) ∧
      TokenSource.Token demoEnv 2 (.ptr (some 0)) wA
        = .ok ((some 10, none), ⟨[demoCache 0 none (some (.closure 0))], 1,
            [.fetch 0, .notify (.closure 0) (some 10)]⟩) :=
  ⟨rfl,
   match WithNotifyFunc_leaves_receiver demoEnv 1 0 (demoCache 0 none (some (.closure 0)))
      (some (.closure 1)) (demoWorld [demoCache 0 none (some (.closure 0))] 0) rfl with
   | ⟨v, wA, h1, h2, h3, h4, h5⟩ =>
     ⟨v, wA, h1, h2, h3, h4, by
       subst h3
       exact (h5 (.closure 0) ⟨[demoCache 0 none (some (.closure 0))], 1, [.fetch 0]⟩
         ⟨[demoCache 0 none (some (.closure 0))], 1,
           [.fetch 0, .notify (.closure 0) (some 10)]⟩
         (some 10) none rfl rfl rfl rfl rfl).1⟩⟩

/-- The body of `Token` on a cache with a free mutex whose callback is the
package-level `notifyFunc`, as the constructor builds it. -/
theorem Token_body_default (env : Env Tok Err σ)
    (call : TokenSource Tok → World Tok σ → Outcome Tok Err σ)
    (src : TokenSource Tok) (t : Option Tok) (w : World Tok σ) :
    notifyRefreshTokenSource.Token env call
        { new := src, mu := false, t := t, notifyFunc := some .notifyFunc } w
      = if Valid env w.outside t then .ok ((t, none), w)
        else
          match call src w with
          | .error x => .error x
          | .ok ((_, some err), w1) => .ok ((none, some err), w1)
          | .ok ((c, none), w1) =>
            .ok ((c, none), { w1 with trace := w1.trace ++ [Event.notify .notifyFunc c] }) := by
  simp only [notifyRefreshTokenSource.Token, callNotify, notifyFunc]
  rfl

/-- The body of `Token` when the credential needs a refresh and the call on the inner
supplier does not return. -/
theorem Token_body_fault (env : Env Tok Err σ)
    (call : TokenSource Tok → World Tok σ → Outcome Tok Err σ)
    (s : Cache Tok) (w : World Tok σ) (x : Fault)
    (hmu : s.mu = false) (hinv : Valid env w.outside s.t = false)
    (hnew : call s.new w = .error x) :
    s.Token env call w = .error x := by
  simp [notifyRefreshTokenSource.Token, hmu, hinv, hnew]

/-- When the callback of a cache always returns a nil error, an error that `Token`
returns comes with a nil credential. -/
theorem Token_body_error_nil (env : Env Tok Err σ)
    (call : TokenSource Tok → World Tok σ → Outcome Tok Err σ)
    (s : Cache Tok) (w w2 : World Tok σ) (x : Option Tok) (e : Err)
    (hcb : ∀ f, s.notifyFunc = some f → ∀ c w1, ∃ w3, callNotify env f c w1 = .ok (none, w3))
    (h : s.Token env call w = .ok ((x, some e), w2)) : x = none := by
  obtain ⟨_, hcase⟩ := Token_body_inv env call s w w2 _ h
  rcases hcase with ⟨_, hr, _⟩ | ⟨_, t0, e0, _, hr⟩ | ⟨_, c, _, _, hr⟩ |
    ⟨_, c, w1, f, e0, _, hf, hn, hr⟩
  · simp only [Prod.mk.injEq] at hr
    exact absurd hr.2 (by simp)
  · simp only [Prod.mk.injEq] at hr
    exact hr.1
  · simp only [Prod.mk.injEq] at hr
    exact absurd hr.2 (by simp)
  · simp only [Prod.mk.injEq] at hr
    obtain ⟨w3, h3⟩ := hcb f hf c w1
    rw [h3] at hn
    simp only [Except.ok.injEq, Prod.mk.injEq] at hn
    rw [← hn.1] at hr
    exact absurd hr.2 (by simp)

/-- C18 (the code at a failing input). First, an existing cache at address 0 holds token 100,
valid at time 5, over supplier 0; handed that cache and the expired token 3, the
constructor builds a cache over supplier 0, whose `Token` fetches and returns
token 15, while the nested wrapper asks the existing cache and returns its
token 100. Second, an existing cache with no credential and the rejecting callback
1; with a nil initial credential the constructor returns that cache, whose `Token`
returns token 10 with error 500, while the nested wrapper returns a nil credential
with error 500. -/
theorem NotifyRefreshTokenSource_differs_from_nested :
    NotifyRefreshTokenSource (some 3) (.ptr (some 0))
        (demoWorld [demoCache 0 (some 100) (some .notifyFunc)] 5)
      = .ok (some 1, demoWorld [demoCache 0 (some 100) (some .notifyFunc),
          demoCache 0 (some 3) (some .notifyFunc)] 5) ∧
    Except.map Prod.fst (TokenSource.Token demoEnv 2 (.ptr (some 1))
        (demoWorld [demoCache 0 (some 100) (some .notifyFunc),
          demoCache 0 (some 3) (some .notifyFunc)] 5))
      = .ok (some 15, none) ∧
    Except.map Prod.fst ((nestedWrapper (some 3) (some 0)).Token demoEnv
        (TokenSource.Token demoEnv 2)
        (demoWorld [demoCache 0 (some 100) (some .notifyFunc),
          demoCache 0 (some 3) (some .notifyFunc)] 5))
      = .ok (some 100, none) ∧
    NotifyRefreshTokenSource (none : Option Nat) (.ptr (some 0))
        (demoWorld [demoCache 0 none (some (.closure 1))] 0)
      = .ok (some 0, demoWorld [demoCache 0 none (some (.closure 1))] 0) ∧
    Except.map Prod.fst (TokenSource.Token demoEnv 2 (.ptr (some 0))
        (demoWorld [demoCache 0 none (some (.closure 1))] 0))
      = .ok (some 10, some 500) ∧
    Except.map Prod.fst ((nestedWrapper none (some 0)).Token demoEnv
        (TokenSource.Token demoEnv 2) (demoWorld [demoCache 0 none (some (.closure 1))] 0))
      = .ok (none, some 500) :=
  ⟨rfl, rfl, rfl, rfl, rfl, rfl⟩

/-- The cases in which the constructor's result does answer as the nested wrapper:
let `rt` be an existing cache with a free mutex whose callback, if
any, always returns a nil error, and whose own cached credential is not valid when
`t` is a non-nil credential that is not valid. Then `Token` on the cache the
constructor returns for `t` and `rt` gives the same credential and error (or fails
to return in the same way) as `Token` on the nested wrapper that holds `t` and has
`rt` itself for inner supplier. -/
theorem NotifyRefreshTokenSource_equivalent_to_nested (env : Env Tok Err σ) (fuel a : Nat)
    (t : Option Tok) (rt : Cache Tok) (w : World Tok σ)
    (ha : w.heap[a]? = some rt) (hmu : rt.mu = false)
    (hval : ∀ tok, t = some tok → env.valid tok w.outside = false →
      Valid env w.outside rt.t = false)
    (hcb : ∀ f, rt.notifyFunc = some f →
      ∀ c w1, ∃ w2, callNotify env f c w1 = .ok (none, w2)) :
    ∃ p w1, NotifyRefreshTokenSource t (.ptr (some a)) w = .ok (p, w1) ∧
      Except.map Prod.fst (TokenSource.Token env (fuel + 1) (.ptr p) w1)
        = Except.map Prod.fst
            ((nestedWrapper t (some a)).Token env (TokenSource.Token env (fuel + 1)) w1) := by
  cases t with
  | none =>
    refine ⟨some a, w, rfl, ?_⟩
    have hN := Token_body_default env (TokenSource.Token env (fuel + 1)) (.ptr (some a))
      (none : Option Tok) w
    unfold nestedWrapper
    rw [hN, Token_ptr env fuel a rt w ha]
    simp only [Valid, Bool.false_eq_true, if_false]
    cases hX : rt.Token env (TokenSource.Token env fuel) w with
    | error x => rfl
    | ok v =>
      obtain ⟨⟨x, err⟩, w2⟩ := v
      cases err with
      | none => rfl
      | some e =>
        have hx := Token_body_error_nil env _ rt w w2 x e hcb hX
        subst hx
        rfl
  | some tok =>
    have hlt : a < w.heap.length := by
      by_contra hge
      rw [List.getElem?_eq_none (Nat.le_of_not_lt hge)] at ha
      exact absurd ha (by simp)
    let cell : Cache Tok :=
      { new := rt.new, mu := false, t := some tok, notifyFunc := some .notifyFunc }
    let w1 : World Tok σ := { w with heap := w.heap ++ [cell] }
    have hcons : NotifyRefreshTokenSource (some tok) (.ptr (some a)) w
        = .ok (some w.heap.length, w1) := by
      simp only [NotifyRefreshTokenSource, ha, alloc, w1, cell]
    have hcell : w1.heap[w.heap.length]? = some cell := List.getElem?_concat_length _ _
    have hrt : w1.heap[a]? = some rt := by
      show (w.heap ++ [cell])[a]? = some rt
      rw [List.getElem?_append_left hlt]
      exact ha
    refine ⟨some w.heap.length, w1, hcons, ?_⟩
    have hU := Token_body_default env (TokenSource.Token env fuel) rt.new (some tok) w1
    have hN := Token_body_default env (TokenSource.Token env (fuel + 1)) (.ptr (some a))
      (some tok) w1
    unfold nestedWrapper
    rw [Token_ptr env fuel w.heap.length cell w1 hcell, hN, hU,
      Token_ptr env fuel a rt w1 hrt]
    cases hv : Valid env w1.outside (some tok) with
    | true => simp
    | false =>
      simp only [Bool.false_eq_true, if_false]
      have hrtv : Valid env w1.outside rt.t = false := hval tok rfl hv
      cases hY : TokenSource.Token env fuel rt.new w1 with
      | error x =>
        rw [Token_body_fault env _ rt w1 x hmu hrtv hY]
      | ok v =>
        obtain ⟨⟨c, err⟩, w2⟩ := v
        cases err with
        | some e =>
          rw [Token_body_fail env _ rt w1 w2 c e hmu hrtv hY]
        | none =>
          cases hf : rt.notifyFunc with
          | none =>
            rw [Token_body_no_notify env _ rt w1 w2 c hmu hrtv hY hf]
          | some g =>
            obtain ⟨w3, h3⟩ := hcb g hf c w2
            rw [Token_body_notify env _ rt w1 w2 w3 c g none hmu hrtv hY hf h3]
            rfl

/-- An example of those cases: the cache the constructor built over supplier 0 with no
credential, handed back to the constructor at time 5 with the expired token 3. -/
theorem NotifyRefreshTokenSource_equivalent_to_nested_witness :
    ∃ p w1, NotifyRefreshTokenSource (some 3) (.ptr (some 0))
        (demoWorld [demoCache 0 none (some .notifyFunc)] 5) = .ok (p, w1) ∧
      Except.map Prod.fst (TokenSource.Token demoEnv (1 + 1) (.ptr p) w1)
        = Except.map Prod.fst
            ((nestedWrapper (some 3) (some 0)).Token demoEnv
              (TokenSource.Token demoEnv (1 + 1)) w1) :=
  NotifyRefreshTokenSource_equivalent_to_nested demoEnv 1 0 (some 3)
    (demoCache 0 none (some .notifyFunc)) (demoWorld [demoCache 0 none (some .notifyFunc)] 5)
    rfl rfl (fun _ _ _ => rfl)
    (fun f hf c w1 => ⟨{ w1 with trace := w1.trace ++ [Event.notify f c] }, by
      cases hf
      rfl⟩)

/-- A call of the package-level `notifyFunc` leaves the outside state as it is. -/
theorem callNotify_default_outside (env : Env Tok Err σ) (t : Option Tok)
    (w w2 : World Tok σ) (e : Option Err)
    (h : callNotify env .notifyFunc t w = .ok (e, w2)) : w2.outside = w.outside := by
  simp only [callNotify, Except.ok.injEq, Prod.mk.injEq] at h
  rw [← h.2]

/-- When the validity test does not depend on the outside state, neither does the
verdict on a possibly nil credential. -/
theorem Valid_stable (env : Env Tok Err σ)
    (hst : ∀ tok x y, env.valid tok x = env.valid tok y) (x y : σ) (t : Option Tok) :
    Valid env x t = Valid env y t := by
  cases t with
  | none => rfl
  | some tok => exact hst tok x y

/-- C19 (the claim fails here): in `slowEnv` every supplier only ever succeeds with a
credential that is valid in the state it leaves. A cache with no credential over
supplier 0 with callback 0 is asked for a token at time 0: the supplier issues
token 10 at time 1, where it is valid, the callback accepts it and returns at time
101, and `Token` returns token 10 with a nil error in a state in which it is no
longer valid. -/
theorem Token_returns_expired_credential :
    (∀ (k now : Nat) (c : Option Nat) (x : Nat),
      slowEnv.fetch k now = .ok ((c, none), x) → Valid slowEnv x c = true) ∧
    TokenSource.Token slowEnv 1 (.terminal 0) (demoWorld [] 0)
      = .ok ((some 10, none), ⟨[], 1, [.fetch 0]⟩) ∧
    Valid slowEnv 1 (some 10) = true ∧
    (demoCache 0 none (some (.closure 0))).Token slowEnv (TokenSource.Token slowEnv 1)
        (demoWorld [] 0)
      = .ok ((some 10, none), ⟨[], 101, [.fetch 0, .notify (.closure 0) (some 10)]⟩) ∧
    Valid slowEnv 101 (some 10) = false := by
  refine ⟨?_, rfl, rfl, rfl, rfl⟩
  intro k now c x h
  simp only [slowEnv, Except.ok.injEq, Prod.mk.injEq, and_true] at h
  obtain ⟨hc, hx⟩ := h
  subst hc
  subst hx
  simp only [Valid, slowEnv, decide_eq_true_eq]
  omega

/-- C19 (amended): when every credential the inner supplier succeeds with is valid in
the state the supplier leaves, a credential that `Token` returns together with a nil error is
non-nil, and it is either the cached credential, valid in the state of the call,
which is also the state at return, or the credential the supplier just produced,
valid in the state the supplier left. It is valid in the state at return whenever
the callback field is nil or the package-level `notifyFunc`, and whenever the
validity test does not depend on the outside state. -/
theorem Token_returns_valid_credential (env : Env Tok Err σ)
    (call : TokenSource Tok → World Tok σ → Outcome Tok Err σ)
    (s : Cache Tok) (w w2 : World Tok σ) (cred : Option Tok)
    (hsup : ∀ c w1, call s.new w = .ok ((c, none), w1) → Valid env w1.outside c = true)
    (hret : s.Token env call w = .ok ((cred, none), w2)) :
    cred ≠ none ∧
    ((cred = s.t ∧ w2 = w ∧ Valid env w.outside cred = true) ∨
     (∃ w1, call s.new w = .ok ((cred, none), w1) ∧ Valid env w1.outside cred = true)) ∧
    (s.notifyFunc = none ∨ s.notifyFunc = some .notifyFunc →
      Valid env w2.outside cred = true) ∧
    ((∀ tok x y, env.valid tok x = env.valid tok y) → Valid env w2.outside cred = true) := by
  have hnil : ∀ x : σ, ∀ c : Option Tok, Valid env x c = true → c ≠ none := by
    intro x c hc hn
    rw [hn] at hc
    exact absurd hc (by simp [Valid])
  obtain ⟨_, hcase⟩ := Token_body_inv env call s w w2 _ hret
  rcases hcase with ⟨hv, hr, hw⟩ | ⟨_, t0, e0, _, hr⟩ | ⟨_, c, hc, hf, hr⟩ |
    ⟨_, c, w1, f, e0, hc, hf, hn, hr⟩
  · simp only [Prod.mk.injEq, and_true] at hr
    subst hr
    subst hw
    exact ⟨hnil _ _ hv, Or.inl ⟨rfl, rfl, hv⟩, fun _ => hv, fun _ => hv⟩
  · simp only [Prod.mk.injEq] at hr
    exact absurd hr.2 (by simp)
  · simp only [Prod.mk.injEq, and_true] at hr
    subst hr
    have hv := hsup cred w2 hc
    exact ⟨hnil _ _ hv, Or.inr ⟨w2, hc, hv⟩, fun _ => hv, fun _ => hv⟩
  · simp only [Prod.mk.injEq] at hr
    obtain ⟨hcred, _⟩ := hr
    subst hcred
    have hv := hsup cred w1 hc
    refine ⟨hnil _ _ hv, Or.inr ⟨w1, hc, hv⟩, ?_, ?_⟩
    · intro hdef
      rcases hdef with hnone | hdefault
      · rw [hnone] at hf
        exact absurd hf (by simp)
      · rw [hdefault] at hf
        simp only [Option.some.injEq] at hf
        subst hf
        rw [callNotify_default_outside env cred w1 w2 e0 hn]
        exact hv
    · intro hst
      rw [Valid_stable env hst w2.outside w1.outside cred]
      exact hv

/-- Witness for C19: a cache with no credential over supplier 0 at time 0, with the
accepting callback 0; the token 10 it returns is valid at time 1. -/
theorem Token_returns_valid_credential_witness :
    (demoCache 0 none (some (.closure 0))).Token demoEnv (TokenSource.Token demoEnv 1)
        (demoWorld [] 0)
      = .ok ((some 10, none), ⟨[], 1, [.fetch 0, .notify (.closure 0) (some 10)]⟩) ∧
    (some 10 : Option Nat) ≠ none ∧
    ((some 10 = (demoCache 0 none (some (.closure 0))).t ∧
        World.mk ([] : List (Cache Nat)) 1 [.fetch 0, .notify (.closure 0) (some 10)]
          = demoWorld [] 0 ∧
        Valid demoEnv (demoWorld [] 0).outside (some 10) = true) ∨
     (∃ w1, TokenSource.Token demoEnv 1 (demoCache 0 none (some (.closure 0))).new
          (demoWorld [] 0) = .ok ((some 10, none), w1) ∧
        Valid demoEnv w1.outside (some 10) = true)) :=
  let h := Token_returns_valid_credential demoEnv (TokenSource.Token demoEnv 1)
    (demoCache 0 none (some (.closure 0))) (demoWorld [] 0)
    ⟨[], 1, [.fetch 0, .notify (.closure 0) (some 10)]⟩ (some 10)
    (fun c w1 h => by
      have h2 : TokenSource.Token demoEnv 1
          (demoCache 0 none (some (.closure 0))).new (demoWorld [] 0)
          = .ok ((some 10, none), ⟨[], 1, [.fetch 0]⟩) := rfl
      rw [h2] at h
      simp only [Except.ok.injEq, Prod.mk.injEq] at h
      rw [← h.1.1, ← h.2]
      rfl)
    rfl
  ⟨rfl, h.1, h.2.1⟩

end Theorems

end tokennotify
